import Mathlib

/-
Verification of the SeaBattle Telegram bot's game core.

The source is a Python repository; its game rules live in `game_logic.py`
(board creation, ship placement validation, automatic placement, attack
resolution) and the transport handlers live in `bot.py` (Telegram callback
handlers and a Flask HTTP API).  This file gives a shallow embedding of the
relevant functions and proves or refutes the specified properties.

Cell values are the emoji strings of the source:
  🌊 water (Empty), 🟥 ship (Ship), 🔥 fire (Hit), ❌ cross (Sunk),
  ⚫ dot (Miss), 🟦 blue (placement preview ghost).
-/

namespace SeaBattle

inductive Cell
  | water
  | ship
  | fire
  | cross
  | dot
  | blue
deriving DecidableEq, Repr

/-- Boards are Python `list[list[str]]`, row major. -/
abbrev Grid := List (List Cell)

/-- Read `board[r][c]`.  The source only reads in-bounds indices (every read
is guarded by an explicit bounds check), so the default value is never
observable on the guarded paths. -/
def cellAt (g : Grid) (r c : Int) : Cell :=
  if 0 ≤ r ∧ 0 ≤ c then (g.getD r.toNat []).getD c.toNat Cell.water
  else Cell.water

/-- Write `board[r][c] = v`.  The source only writes in-bounds indices. -/
def setCell (g : Grid) (r c : Int) (v : Cell) : Grid :=
  if 0 ≤ r ∧ 0 ≤ c then
    g.set r.toNat ((g.getD r.toNat []).set c.toNat v)
  else g

/-- `create_empty_board(size)` from game_logic.py. -/
def create_empty_board (size : Nat) : Grid :=
  List.replicate size (List.replicate size Cell.water)

/-- `create_empty_attacks(size)` from game_logic.py. -/
def create_empty_attacks (size : Nat) : Grid :=
  List.replicate size (List.replicate size Cell.water)

inductive Mode
  | classic
  | fast
  | full
deriving DecidableEq, Repr

structure ModeConfig where
  size : Nat
  ships : List Nat
deriving DecidableEq, Repr

/-- `GAME_MODES` from game_logic.py. -/
def GAME_MODES : Mode → ModeConfig
  | .classic => ⟨8, [3, 3, 2, 2, 1, 1, 1, 1]⟩
  | .fast => ⟨6, [3, 2, 1, 1]⟩
  | .full => ⟨10, [4, 3, 3, 2, 2, 2, 1, 1, 1, 1]⟩

/-- `get_ship_config(mode)` from game_logic.py. -/
def get_ship_config (mode : Mode) : ModeConfig :=
  GAME_MODES mode

/-- `0 <= r < size and 0 <= c < size` (the bounds test used throughout the
source, written positively). -/
def inGrid (size : Nat) (r c : Int) : Bool :=
  decide (0 ≤ r) && decide (r < (size : Int)) && decide (0 ≤ c) && decide (c < (size : Int))

/-- The nested `for dr in [-1,0,1]: for dc in [-1,0,1]` loops of the source,
flattened to the 9 offset pairs in iteration order. -/
def deltaPairs : List (Int × Int) :=
  [(-1, -1), (-1, 0), (-1, 1), (0, -1), (0, 0), (0, 1), (1, -1), (1, 0), (1, 1)]

/-- The cells a ship occupies: `cells_to_check` / the cells produced by
`place_ship`, for the given orientation. -/
def shipCells (row col : Int) (ship_size : Nat) (horizontal : Bool) : List (Int × Int) :=
  if horizontal then (List.range ship_size).map (fun i : Nat => (row, col + (i : Int)))
  else (List.range ship_size).map (fun i : Nat => (row + (i : Int), col))

/-- `validate_ship_placement(board, size, row, col, ship_size, horizontal)`
from game_logic.py.  Early `return False` paths are rendered as `&&`
conjuncts: the leading length check (`col + ship_size > size` resp.
`row + ship_size > size`), the per-cell bounds loop, and then the
overlap/adjacency loop over the ship cells and all 9 neighbour offsets. -/
def validate_ship_placement (board : Grid) (size : Nat) (row col : Int)
    (ship_size : Nat) (horizontal : Bool) : Bool :=
  (if horizontal then
    decide (col + (ship_size : Int) ≤ (size : Int)) &&
      (List.range ship_size).all (fun i : Nat => inGrid size row (col + (i : Int)))
  else
    decide (row + (ship_size : Int) ≤ (size : Int)) &&
      (List.range ship_size).all (fun i : Nat => inGrid size (row + (i : Int)) col)) &&
  (shipCells row col ship_size horizontal).all (fun p =>
    (cellAt board p.1 p.2 != Cell.ship) &&
    deltaPairs.all (fun d =>
      !(inGrid size (p.1 + d.1) (p.2 + d.2) &&
        (cellAt board (p.1 + d.1) (p.2 + d.2) == Cell.ship))))

/-- `place_ship(board, row, col, ship_size, horizontal)` from game_logic.py:
marks the ship cells 🟥 and returns the updated board with the cell list. -/
def place_ship (board : Grid) (row col : Int) (ship_size : Nat) (horizontal : Bool) :
    Grid × List (Int × Int) :=
  let cells := shipCells row col ship_size horizontal
  (cells.foldl (fun g p => setCell g p.1 p.2 Cell.ship) g₀, cells)
where g₀ := board

/-- The 8-neighbourhood offsets (the spec's "8-neighborhood", excluding the
cell itself). -/
def eightDeltas : List (Int × Int) :=
  [(-1, -1), (-1, 0), (-1, 1), (0, -1), (0, 1), (1, -1), (1, 0), (1, 1)]

/-- Spec-side placement condition, following the spec's words: all ship
cells in bounds, none already a ship, and no in-grid 8-neighbour of a ship
cell holds a ship. -/
def specCanPlace (board : Grid) (size : Nat) (row col : Int)
    (ship_size : Nat) (horizontal : Bool) : Prop :=
  (∀ p ∈ shipCells row col ship_size horizontal, inGrid size p.1 p.2 = true) ∧
  (∀ p ∈ shipCells row col ship_size horizontal, cellAt board p.1 p.2 ≠ Cell.ship) ∧
  (∀ p ∈ shipCells row col ship_size horizontal, ∀ d ∈ eightDeltas,
    inGrid size (p.1 + d.1) (p.2 + d.2) = true →
      cellAt board (p.1 + d.1) (p.2 + d.2) ≠ Cell.ship)

instance (board : Grid) (size : Nat) (row col : Int) (ship_size : Nat) (horizontal : Bool) :
    Decidable (specCanPlace board size row col ship_size horizontal) := by
  unfold specCanPlace
  infer_instance

theorem list_all_map {α β : Type} (l : List α) (f : α → β) (p : β → Bool) :
    (l.map f).all p = l.all (fun x => p (f x)) := by
  induction l with
  | nil => rfl
  | cons a t ih => simp [List.all_cons, ih]

theorem or_false_iff_imp (b : Bool) (P : Prop) : (b = false ∨ P) ↔ (b = true → P) := by
  cases b <;> simp

/-- The per-cell body of the source's overlap/adjacency loop, restated with
the spec's 8-neighbourhood: the extra centre offset `(0,0)` of the source's
9-offset loop is subsumed by the cell-itself check. -/
theorem cell_ok_iff (board : Grid) (size : Nat) (p : Int × Int) :
    ((cellAt board p.1 p.2 != Cell.ship) &&
      deltaPairs.all (fun d =>
        !(inGrid size (p.1 + d.1) (p.2 + d.2) &&
          (cellAt board (p.1 + d.1) (p.2 + d.2) == Cell.ship)))) = true ↔
    (cellAt board p.1 p.2 ≠ Cell.ship ∧
      ∀ d ∈ eightDeltas, inGrid size (p.1 + d.1) (p.2 + d.2) = true →
        cellAt board (p.1 + d.1) (p.2 + d.2) ≠ Cell.ship) := by
  simp only [deltaPairs, eightDeltas, List.all_cons, List.all_nil, List.forall_mem_cons,
    Bool.and_eq_true, Bool.and_true, bne_iff_ne, ne_eq,
    Bool.not_eq_true', Bool.and_eq_false_iff, beq_eq_false_iff_ne, add_zero,
    Bool.not_eq_true, or_false_iff_imp]
  constructor
  · rintro ⟨h0, c1, c2, c3, c4, _c5, c6, c7, c8, c9⟩
    exact ⟨h0, c1, c2, c3, c4, c6, c7, c8, c9,
      fun x hx => absurd hx (List.not_mem_nil x)⟩
  · rintro ⟨h0, c1, c2, c3, c4, c6, c7, c8, c9, -⟩
    exact ⟨h0, c1, c2, c3, c4, fun _ => h0, c6, c7, c8, c9⟩

/-- For a nonempty horizontal ship, the source's leading length check
`col + ship_size > size` is subsumed by the per-cell bounds checks. -/
theorem bounds_eq_horizontal (size : Nat) (row col : Int) (s : Nat)
    (hs : 1 ≤ s) :
    (decide (col + (s : Int) ≤ (size : Int)) &&
      (List.range s).all (fun i : Nat => inGrid size row (col + (i : Int)))) =
    (shipCells row col s true).all (fun p => inGrid size p.1 p.2) := by
  rw [shipCells, if_pos rfl, list_all_map]
  cases hX : (List.range s).all (fun i : Nat => inGrid size row (col + (i : Int)))
  · simp
  · simp only [Bool.and_true]
    rw [List.all_eq_true] at hX
    have h1 := hX (s - 1) (List.mem_range.mpr (by omega))
    simp only [inGrid, Bool.and_eq_true, decide_eq_true_eq] at h1
    simp only [decide_eq_true_eq]
    omega

/-- For a nonempty vertical ship, the source's leading length check
`row + ship_size > size` is subsumed by the per-cell bounds checks. -/
theorem bounds_eq_vertical (size : Nat) (row col : Int) (s : Nat)
    (hs : 1 ≤ s) :
    (decide (row + (s : Int) ≤ (size : Int)) &&
      (List.range s).all (fun i : Nat => inGrid size (row + (i : Int)) col)) =
    (shipCells row col s false).all (fun p => inGrid size p.1 p.2) := by
  rw [shipCells, if_neg (by simp), list_all_map]
  cases hX : (List.range s).all (fun i : Nat => inGrid size (row + (i : Int)) col)
  · simp
  · simp only [Bool.and_true]
    rw [List.all_eq_true] at hX
    have h1 := hX (s - 1) (List.mem_range.mpr (by omega))
    simp only [inGrid, Bool.and_eq_true, decide_eq_true_eq] at h1
    simp only [decide_eq_true_eq]
    omega

/-- C1: for every board, grid size N, integer row and col, orientation, and
every (nonempty) ship size, `validate_ship_placement` returns true iff all
ship cells lie within the N by N grid, none of them already contains a ship,
and no in-grid cell of the 8-neighborhood of any ship cell contains a ship
(ships may never touch, including diagonally). -/
theorem validate_ship_placement_correct (board : Grid) (size : Nat) (row col : Int)
    (s : Nat) (horizontal : Bool) (hs : 1 ≤ s) :
    validate_ship_placement board size row col s horizontal = true ↔
      specCanPlace board size row col s horizontal := by
  have hcells : ∀ cells : List (Int × Int), (cells.all (fun p =>
      (cellAt board p.1 p.2 != Cell.ship) &&
      deltaPairs.all (fun d =>
        !(inGrid size (p.1 + d.1) (p.2 + d.2) &&
          (cellAt board (p.1 + d.1) (p.2 + d.2) == Cell.ship)))) = true ↔
      ((∀ p ∈ cells, cellAt board p.1 p.2 ≠ Cell.ship) ∧
       (∀ p ∈ cells, ∀ d ∈ eightDeltas,
          inGrid size (p.1 + d.1) (p.2 + d.2) = true →
            cellAt board (p.1 + d.1) (p.2 + d.2) ≠ Cell.ship))) := by
    intro cells
    rw [List.all_eq_true]
    constructor
    · intro h
      exact ⟨fun p hp => ((cell_ok_iff board size p).1 (h p hp)).1,
             fun p hp => ((cell_ok_iff board size p).1 (h p hp)).2⟩
    · rintro ⟨h1, h2⟩ p hp
      exact (cell_ok_iff board size p).2 ⟨h1 p hp, h2 p hp⟩
  unfold validate_ship_placement specCanPlace
  cases horizontal
  · rw [if_neg (by simp), bounds_eq_vertical size row col s hs,
      Bool.and_eq_true, List.all_eq_true, hcells]
  · rw [if_pos rfl, bounds_eq_horizontal size row col s hs,
      Bool.and_eq_true, List.all_eq_true, hcells]

/-- The scenario board of the spec: classic 8 by 8 board with a size-3 ship
placed horizontally at row 0 starting at column 0. -/
def scenarioBoard : Grid :=
  (place_ship (create_empty_board 8) 0 0 3 true).1

/-- C1 witness: on the scenario board, placing a size-2 ship at `(0,4)`
is valid, and the code and spec sides agree on it. -/
theorem validate_ship_placement_correct_witness :
    (1 ≤ 2 ∧
      (validate_ship_placement scenarioBoard 8 0 4 2 true = true ↔
        specCanPlace scenarioBoard 8 0 4 2 true)) ∧
    validate_ship_placement scenarioBoard 8 0 4 2 true = true ∧
    validate_ship_placement scenarioBoard 8 0 3 2 true = false :=
  ⟨⟨by decide, validate_ship_placement_correct scenarioBoard 8 0 4 2 true (by decide)⟩,
    by decide, by decide⟩

inductive PlayerId
  | p1
  | p2
deriving DecidableEq, Repr

/-- `'p2' if attacker_id == 'p1' else 'p1'` — the opposite player id. -/
def defender_of : PlayerId → PlayerId
  | .p1 => .p2
  | .p2 => .p1

/-- A ship dict `{size, cells, destroyed}` as built by the source. -/
structure Ship where
  size : Nat
  cells : List (Int × Int)
  destroyed : Bool
deriving DecidableEq, Repr

/-- The fields of `Player` (models.py) that the game core reads or writes. -/
structure Player where
  ready : Bool
  board : Grid
  attacks : Grid
  ships : List Ship
  last_enemy_move : Option (Int × Int)
  last_enemy_move_was_miss : Bool
deriving DecidableEq, Repr

/-- Values stored in `GameState.surrendered`: the Telegram handler stores a
player id, while the HTTP handler stores the boolean `True` (the field is
dynamically typed in Python, despite its `Optional[Literal]` annotation). -/
inductive SurrenderedVal
  | pid (p : PlayerId)
  | boolTrue
deriving DecidableEq, Repr

/-- `game.last_move_info` message variants set by the attack handler. -/
inductive MoveInfo
  | destroyedMsg
  | hitMsg
  | missMsg
deriving DecidableEq, Repr

/-- The fields of `GameState` (models.py) that the game core reads or
writes.  Timestamps are modelled as rationals (Python floats). -/
structure GameState where
  mode : Mode
  is_timed : Bool
  p1 : Option Player
  p2 : Option Player
  current_player : Option PlayerId
  winner : Option PlayerId
  surrendered : Option SurrenderedVal
  last_move_time : Option ℚ
  last_move_info : Option MoveInfo
deriving DecidableEq, Repr

/-- `GameState.get_player` from models.py. -/
def GameState.get_player (g : GameState) : PlayerId → Option Player
  | .p1 => g.p1
  | .p2 => g.p2

/-- Store an updated player back into the game (Python mutates in place). -/
def GameState.set_player (g : GameState) : PlayerId → Player → GameState
  | .p1, pl => { g with p1 := some pl }
  | .p2, pl => { g with p2 := some pl }

/-- `GameState.is_ready_to_start` from models.py. -/
def GameState.is_ready_to_start (g : GameState) : Bool :=
  match g.p1, g.p2 with
  | some a, some b => a.ready && b.ready
  | _, _ => false

/-- `get_ship_at_cell(ships, row, col)` from game_logic.py: the first ship
whose cell list contains `(row, col)`. -/
def get_ship_at_cell (ships : List Ship) (row col : Int) : Option Ship :=
  ships.find? (fun s => decide ((row, col) ∈ s.cells))

/-- `check_ship_destroyed(ship, board)` from game_logic.py. -/
def check_ship_destroyed (ship : Ship) (board : Grid) : Bool :=
  ship.cells.all (fun p => cellAt board p.1 p.2 == Cell.fire)

/-- `check_game_over(game)` from game_logic.py. -/
def check_game_over (g : GameState) : Bool :=
  g.winner.isSome || g.surrendered.isSome

/-- The loop marking every cell of a destroyed ship with ❌. -/
def markSunk (cells : List (Int × Int)) (g : Grid) : Grid :=
  cells.foldl (fun g p => setCell g p.1 p.2 Cell.cross) g

/-- All positions visited by the source's neighbour-marking loops: each ship
cell offset by each of the 9 deltas, in iteration order. -/
def neighborCandidates (cells : List (Int × Int)) : List (Int × Int) :=
  cells.flatMap (fun p => deltaPairs.map (fun d => (p.1 + d.1, p.2 + d.2)))

/-- One iteration of the neighbour-marking loop for one grid: mark ⚫ when
the position is in the grid, is not a cell of the destroyed ship itself, and
currently holds 🌊. -/
def dotStep (size : Nat) (cells : List (Int × Int)) (g : Grid) (n : Int × Int) : Grid :=
  if inGrid size n.1 n.2 = true ∧ n ∉ cells ∧ cellAt g n.1 n.2 = Cell.water
  then setCell g n.1 n.2 Cell.dot else g

/-- The neighbour-marking loop over an explicit list of visited positions. -/
def dotMarkFold (size : Nat) (cells : List (Int × Int)) (l : List (Int × Int)) (g : Grid) :
    Grid :=
  l.foldl (dotStep size cells) g

/-- The loop marking ⚫ around a destroyed ship, for one grid.  The source
interleaves the identical updates of the attacker's `attacks` grid and the
defender's `board` in a single loop; the two grids' reads and writes are
independent, so the loop is applied to each grid separately. -/
def markMissesAround (size : Nat) (cells : List (Int × Int)) (g : Grid) : Grid :=
  dotMarkFold size cells (neighborCandidates cells) g

inductive AttackError
  | playerNotFound
  | outOfBounds
  | alreadyAttacked
deriving DecidableEq, Repr

/-- The result dicts returned by `attack_cell`. -/
inductive AttackResult
  | err (e : AttackError)
  | hitDestroyed (ship : Ship)
  | hitAlive
  | miss
deriving DecidableEq, Repr

/-- `attack_cell(game, attacker_id, row, col)` from game_logic.py.  Python
mutates `game` in place and returns a result dict; here the updated game is
returned alongside the result. -/
def attack_cell (game : GameState) (attacker_id : PlayerId) (row col : Int) :
    GameState × AttackResult :=
  let defender_id := defender_of attacker_id
  match game.get_player attacker_id, game.get_player defender_id with
  | some attacker, some defender =>
    let size := (get_ship_config game.mode).size
    if row < 0 ∨ (size : Int) ≤ row ∨ col < 0 ∨ (size : Int) ≤ col then
      (game, .err .outOfBounds)
    else if cellAt attacker.attacks row col ∈ [Cell.dot, Cell.fire, Cell.cross] then
      (game, .err .alreadyAttacked)
    else if cellAt defender.board row col = Cell.ship then
      let defender := { defender with
        last_enemy_move := none, last_enemy_move_was_miss := false }
      let attacker := { attacker with
        attacks := setCell attacker.attacks row col Cell.fire }
      let defender := { defender with
        board := setCell defender.board row col Cell.fire }
      match get_ship_at_cell defender.ships row col with
      | some ship =>
        if check_ship_destroyed ship defender.board then
          let ships2 := defender.ships.map
            (fun s => if s = ship then { s with destroyed := true } else s)
          let attacker := { attacker with
            attacks := markMissesAround size ship.cells (markSunk ship.cells attacker.attacks) }
          let defender := { defender with
            board := markMissesAround size ship.cells (markSunk ship.cells defender.board),
            ships := ships2 }
          let game := (game.set_player attacker_id attacker).set_player defender_id defender
          let game := if ships2.all (·.destroyed) then
              { game with winner := some attacker_id } else game
          (game, .hitDestroyed { ship with destroyed := true })
        else
          let game := (game.set_player attacker_id attacker).set_player defender_id defender
          (game, .hitAlive)
      | none =>
        let game := (game.set_player attacker_id attacker).set_player defender_id defender
        (game, .hitAlive)
    else
      let attacker := { attacker with
        attacks := setCell attacker.attacks row col Cell.dot }
      let defender := { defender with
        board := if cellAt defender.board row col = Cell.water then
            setCell defender.board row col Cell.dot else defender.board }
      let defender := { defender with
        last_enemy_move := some (row, col), last_enemy_move_was_miss := true }
      let game := (game.set_player attacker_id attacker).set_player defender_id defender
      (game, .miss)
  | _, _ => (game, .err .playerNotFound)


/-- Well-formed board: a square list-of-lists of the given size. -/
def GridWF (g : Grid) (size : Nat) : Prop :=
  g.length = size ∧ ∀ r ∈ g, r.length = size

theorem getD_set_same {α : Type} (l : List α) (n : Nat) (v d : α) (h : n < l.length) :
    (l.set n v).getD n d = v := by
  simp [List.getD_eq_getElem?_getD, List.getElem?_set_self, h]

theorem getD_set_ne {α : Type} (l : List α) (m n : Nat) (v d : α) (h : m ≠ n) :
    (l.set m v).getD n d = l.getD n d := by
  simp [List.getD_eq_getElem?_getD, List.getElem?_set_ne, h]

theorem getD_mem_of_lt (g : Grid) (n : Nat) (h : n < g.length) : g.getD n [] ∈ g := by
  rw [List.getD_eq_getElem?_getD, List.getElem?_eq_getElem h]
  exact List.getElem_mem h

theorem cellAt_setCell_same (g : Grid) (size : Nat) (r c : Int) (v : Cell)
    (hg : GridWF g size) (hr : inGrid size r c = true) :
    cellAt (setCell g r c v) r c = v := by
  simp only [inGrid, Bool.and_eq_true, decide_eq_true_eq] at hr
  obtain ⟨⟨⟨h0r, hrs⟩, h0c⟩, hcs⟩ := hr
  obtain ⟨hgl, hgrows⟩ := hg
  have hrn : r.toNat < g.length := by omega
  have hrow : (g.getD r.toNat []).length = size :=
    hgrows _ (getD_mem_of_lt g r.toNat hrn)
  have hcn : c.toNat < (g.getD r.toNat []).length := by rw [hrow]; omega
  simp only [cellAt, setCell, if_pos (And.intro h0r h0c)]
  rw [getD_set_same g r.toNat _ [] hrn, getD_set_same _ c.toNat v Cell.water hcn]

theorem cellAt_setCell_ne (g : Grid) (r c : Int) (v : Cell) (q1 q2 : Int)
    (hne : (q1, q2) ≠ (r, c)) :
    cellAt (setCell g r c v) q1 q2 = cellAt g q1 q2 := by
  unfold setCell
  by_cases hrc : 0 ≤ r ∧ 0 ≤ c
  · rw [if_pos hrc]
    unfold cellAt
    by_cases hq : 0 ≤ q1 ∧ 0 ≤ q2
    · rw [if_pos hq, if_pos hq]
      by_cases hr1 : q1.toNat = r.toNat
      · have hq1 : q1 = r := by omega
        by_cases hlen : r.toNat < g.length
        · rw [hr1, getD_set_same g r.toNat _ [] hlen]
          have hq2 : q2 ≠ c := fun h => hne (Prod.ext hq1 h)
          have hq2n : c.toNat ≠ q2.toNat := by omega
          rw [getD_set_ne _ c.toNat q2.toNat v Cell.water hq2n]
        · rw [List.set_eq_of_length_le (by omega)]
      · rw [getD_set_ne g r.toNat q1.toNat _ [] (fun h => hr1 h.symm)]
    · rw [if_neg hq, if_neg hq]
  · rw [if_neg hrc]

theorem cellAt_setCell_or (g : Grid) (r c : Int) (v : Cell) (q1 q2 : Int) :
    cellAt (setCell g r c v) q1 q2 = cellAt g q1 q2 ∨
      cellAt (setCell g r c v) q1 q2 = v := by
  by_cases hne : (q1, q2) = (r, c)
  · rw [Prod.mk.injEq] at hne
    obtain ⟨hq1, hq2⟩ := hne
    subst hq1
    subst hq2
    unfold setCell cellAt
    by_cases hrc : 0 ≤ q1 ∧ 0 ≤ q2
    · rw [if_pos hrc, if_pos hrc, if_pos hrc]
      by_cases hlen : q1.toNat < g.length
      · rw [getD_set_same g q1.toNat _ [] hlen]
        by_cases hclen : q2.toNat < (g.getD q1.toNat []).length
        · right
          rw [getD_set_same _ q2.toNat v Cell.water hclen]
        · left
          rw [List.set_eq_of_length_le (by omega)]
      · left
        rw [List.set_eq_of_length_le (by omega)]
    · left
      simp only [if_neg hrc]
  · left
    exact cellAt_setCell_ne g r c v q1 q2 hne

theorem setCell_WF (g : Grid) (size : Nat) (r c : Int) (v : Cell)
    (hg : GridWF g size) : GridWF (setCell g r c v) size := by
  unfold setCell
  by_cases hrc : 0 ≤ r ∧ 0 ≤ c
  · rw [if_pos hrc]
    by_cases hlen : r.toNat < g.length
    · refine ⟨by simpa using hg.1, ?_⟩
      intro row hrow
      rcases List.mem_or_eq_of_mem_set hrow with h | h
      · exact hg.2 row h
      · subst h
        rw [List.length_set]
        exact hg.2 _ (getD_mem_of_lt g r.toNat hlen)
    · rw [List.set_eq_of_length_le (by omega)]
      exact hg
  · rwa [if_neg hrc]


theorem markSunk_not_mem (cells : List (Int × Int)) (g : Grid) (q1 q2 : Int)
    (h : (q1, q2) ∉ cells) :
    cellAt (markSunk cells g) q1 q2 = cellAt g q1 q2 := by
  induction cells generalizing g with
  | nil => rfl
  | cons p t ih =>
    rw [markSunk, List.foldl_cons]
    have hne : (q1, q2) ≠ p := fun he => h (he ▸ List.mem_cons_self p t)
    rw [show List.foldl (fun g p => setCell g p.1 p.2 Cell.cross) (setCell g p.1 p.2 Cell.cross) t =
      markSunk t (setCell g p.1 p.2 Cell.cross) from rfl]
    rw [ih _ (fun ht => h (List.mem_cons_of_mem p ht)),
      cellAt_setCell_ne g p.1 p.2 Cell.cross q1 q2 (by simpa using hne)]

theorem markSunk_WF (cells : List (Int × Int)) (g : Grid) (size : Nat)
    (hg : GridWF g size) : GridWF (markSunk cells g) size := by
  induction cells generalizing g with
  | nil => exact hg
  | cons p t ih =>
    rw [markSunk, List.foldl_cons]
    exact ih _ (setCell_WF g size p.1 p.2 Cell.cross hg)

theorem markSunk_or (cells : List (Int × Int)) (g : Grid) (q1 q2 : Int) :
    cellAt (markSunk cells g) q1 q2 = cellAt g q1 q2 ∨
      cellAt (markSunk cells g) q1 q2 = Cell.cross := by
  induction cells generalizing g with
  | nil => left; rfl
  | cons p t ih =>
    rw [markSunk, List.foldl_cons]
    rw [show List.foldl (fun g p => setCell g p.1 p.2 Cell.cross) (setCell g p.1 p.2 Cell.cross) t =
      markSunk t (setCell g p.1 p.2 Cell.cross) from rfl]
    rcases ih (setCell g p.1 p.2 Cell.cross) with h | h
    · rw [h]
      exact cellAt_setCell_or g p.1 p.2 Cell.cross q1 q2
    · right; exact h

theorem markSunk_mem (cells : List (Int × Int)) (g : Grid) (size : Nat)
    (hg : GridWF g size) (hin : ∀ p ∈ cells, inGrid size p.1 p.2 = true)
    (q1 q2 : Int) (h : (q1, q2) ∈ cells) :
    cellAt (markSunk cells g) q1 q2 = Cell.cross := by
  induction cells generalizing g with
  | nil => cases h
  | cons p t ih =>
    rw [markSunk, List.foldl_cons]
    rw [show List.foldl (fun g p => setCell g p.1 p.2 Cell.cross) (setCell g p.1 p.2 Cell.cross) t =
      markSunk t (setCell g p.1 p.2 Cell.cross) from rfl]
    by_cases hmem : (q1, q2) ∈ t
    · exact ih (setCell g p.1 p.2 Cell.cross) (setCell_WF g size p.1 p.2 Cell.cross hg)
        (fun x hx => hin x (List.mem_cons_of_mem p hx)) hmem
    · have hp : (q1, q2) = p := by
        rcases List.mem_cons.1 h with h1 | h1
        · exact h1
        · exact absurd h1 hmem
      rw [markSunk_not_mem t _ q1 q2 hmem]
      have hq1 : q1 = p.1 := congrArg Prod.fst hp
      have hq2 : q2 = p.2 := congrArg Prod.snd hp
      subst hq1
      subst hq2
      exact cellAt_setCell_same g size p.1 p.2 Cell.cross hg (hin p (List.mem_cons_self p t))

theorem dotMarkFold_or (size : Nat) (cells l : List (Int × Int)) (g : Grid) (q1 q2 : Int) :
    cellAt (dotMarkFold size cells l g) q1 q2 = cellAt g q1 q2 ∨
      cellAt (dotMarkFold size cells l g) q1 q2 = Cell.dot := by
  induction l generalizing g with
  | nil => left; rfl
  | cons n t ih =>
    rw [dotMarkFold, List.foldl_cons,
      show List.foldl (dotStep size cells) (dotStep size cells g n) t =
        dotMarkFold size cells t (dotStep size cells g n) from rfl]
    rcases ih (dotStep size cells g n) with h | h
    · rw [h]
      unfold dotStep
      split
      · exact cellAt_setCell_or g n.1 n.2 Cell.dot q1 q2
      · left; rfl
    · right; exact h

theorem dotMarkFold_WF (size : Nat) (cells l : List (Int × Int)) (g : Grid)
    (hg : GridWF g size) : GridWF (dotMarkFold size cells l g) size := by
  induction l generalizing g with
  | nil => exact hg
  | cons n t ih =>
    rw [dotMarkFold, List.foldl_cons]
    refine ih (dotStep size cells g n) ?_
    unfold dotStep
    split
    · exact setCell_WF g size n.1 n.2 Cell.dot hg
    · exact hg

theorem dotMarkFold_mem_cells (size : Nat) (cells l : List (Int × Int)) (g : Grid)
    (q1 q2 : Int) (h : (q1, q2) ∈ cells) :
    cellAt (dotMarkFold size cells l g) q1 q2 = cellAt g q1 q2 := by
  induction l generalizing g with
  | nil => rfl
  | cons n t ih =>
    rw [dotMarkFold, List.foldl_cons,
      show List.foldl (dotStep size cells) (dotStep size cells g n) t =
        dotMarkFold size cells t (dotStep size cells g n) from rfl]
    rw [ih (dotStep size cells g n)]
    unfold dotStep
    split
    · next hcond =>
      have hne : (q1, q2) ≠ n := fun he => hcond.2.1 (he ▸ h)
      exact cellAt_setCell_ne g n.1 n.2 Cell.dot q1 q2 (by simpa using hne)
    · rfl

theorem dotMarkFold_dot_stays (size : Nat) (cells l : List (Int × Int)) (g : Grid)
    (q1 q2 : Int) (h : cellAt g q1 q2 = Cell.dot) :
    cellAt (dotMarkFold size cells l g) q1 q2 = Cell.dot := by
  rcases dotMarkFold_or size cells l g q1 q2 with h1 | h1
  · rw [h1, h]
  · exact h1

theorem dotMarkFold_target (size : Nat) (cells l : List (Int × Int)) (g : Grid)
    (q1 q2 : Int) (hg : GridWF g size) (hmem : (q1, q2) ∈ l)
    (hgrid : inGrid size q1 q2 = true) (hnc : (q1, q2) ∉ cells)
    (hw : cellAt g q1 q2 = Cell.water) :
    cellAt (dotMarkFold size cells l g) q1 q2 = Cell.dot := by
  induction l generalizing g with
  | nil => cases hmem
  | cons n t ih =>
    rw [dotMarkFold, List.foldl_cons,
      show List.foldl (dotStep size cells) (dotStep size cells g n) t =
        dotMarkFold size cells t (dotStep size cells g n) from rfl]
    have hgWF : GridWF (dotStep size cells g n) size := by
      unfold dotStep
      split
      · exact setCell_WF g size n.1 n.2 Cell.dot hg
      · exact hg
    by_cases hqn : (q1, q2) = n
    · have hq1 : q1 = n.1 := congrArg Prod.fst hqn
      have hq2 : q2 = n.2 := congrArg Prod.snd hqn
      have hstep : cellAt (dotStep size cells g n) q1 q2 = Cell.dot := by
        unfold dotStep
        rw [if_pos ⟨hq1 ▸ hq2 ▸ hgrid, hqn ▸ hnc, hq1 ▸ hq2 ▸ hw⟩]
        subst hq1
        subst hq2
        exact cellAt_setCell_same g size n.1 n.2 Cell.dot hg hgrid
      exact dotMarkFold_dot_stays size cells t _ q1 q2 hstep
    · rcases List.mem_cons.1 hmem with h1 | h1
      · exact absurd h1 hqn
      have hstep : cellAt (dotStep size cells g n) q1 q2 = cellAt g q1 q2 ∨
          cellAt (dotStep size cells g n) q1 q2 = Cell.dot := by
        unfold dotStep
        split
        · exact cellAt_setCell_or g n.1 n.2 Cell.dot q1 q2
        · left; rfl
      rcases hstep with h3 | h3
      · refine ih _ hgWF h1 ?_
        rw [h3, hw]
      · exact dotMarkFold_dot_stays size cells t _ q1 q2 h3


theorem attack_cell_miss_eq (game : GameState) (attacker_id : PlayerId)
    (row col : Int) (attacker defender : Player)
    (hA : game.get_player attacker_id = some attacker)
    (hD : game.get_player (defender_of attacker_id) = some defender)
    (hbound : inGrid (get_ship_config game.mode).size row col = true)
    (htrack : cellAt attacker.attacks row col ∉ [Cell.dot, Cell.fire, Cell.cross])
    (hmiss : cellAt defender.board row col ≠ Cell.ship) :
    attack_cell game attacker_id row col =
      (((game.set_player attacker_id
          { attacker with attacks := setCell attacker.attacks row col Cell.dot }).set_player
        (defender_of attacker_id)
          { defender with
            board := if cellAt defender.board row col = Cell.water then
                setCell defender.board row col Cell.dot else defender.board,
            last_enemy_move := some (row, col), last_enemy_move_was_miss := true }),
       .miss) := by
  have hb : ¬(row < 0 ∨ ((get_ship_config game.mode).size : Int) ≤ row ∨ col < 0 ∨
      ((get_ship_config game.mode).size : Int) ≤ col) := by
    simp only [inGrid, Bool.and_eq_true, decide_eq_true_eq] at hbound
    omega
  simp only [attack_cell, hA, hD]
  rw [if_neg hb, if_neg htrack, if_neg hmiss]

theorem attack_cell_hit_alive_eq (game : GameState) (attacker_id : PlayerId)
    (row col : Int) (attacker defender : Player) (ship : Ship)
    (hA : game.get_player attacker_id = some attacker)
    (hD : game.get_player (defender_of attacker_id) = some defender)
    (hbound : inGrid (get_ship_config game.mode).size row col = true)
    (htrack : cellAt attacker.attacks row col ∉ [Cell.dot, Cell.fire, Cell.cross])
    (hship : cellAt defender.board row col = Cell.ship)
    (hfind : get_ship_at_cell defender.ships row col = some ship)
    (hnd : check_ship_destroyed ship (setCell defender.board row col Cell.fire) = false) :
    attack_cell game attacker_id row col =
      (((game.set_player attacker_id
          { attacker with attacks := setCell attacker.attacks row col Cell.fire }).set_player
        (defender_of attacker_id)
          { defender with
            board := setCell defender.board row col Cell.fire,
            last_enemy_move := none, last_enemy_move_was_miss := false }),
       .hitAlive) := by
  have hb : ¬(row < 0 ∨ ((get_ship_config game.mode).size : Int) ≤ row ∨ col < 0 ∨
      ((get_ship_config game.mode).size : Int) ≤ col) := by
    simp only [inGrid, Bool.and_eq_true, decide_eq_true_eq] at hbound
    omega
  simp only [attack_cell, hA, hD]
  rw [if_neg hb, if_neg htrack, if_pos hship]
  simp only [hfind, hnd]
  rfl

theorem attack_cell_hit_destroyed_eq (game : GameState) (attacker_id : PlayerId)
    (row col : Int) (attacker defender : Player) (ship : Ship)
    (hA : game.get_player attacker_id = some attacker)
    (hD : game.get_player (defender_of attacker_id) = some defender)
    (hbound : inGrid (get_ship_config game.mode).size row col = true)
    (htrack : cellAt attacker.attacks row col ∉ [Cell.dot, Cell.fire, Cell.cross])
    (hship : cellAt defender.board row col = Cell.ship)
    (hfind : get_ship_at_cell defender.ships row col = some ship)
    (hdes : check_ship_destroyed ship (setCell defender.board row col Cell.fire) = true) :
    attack_cell game attacker_id row col =
      (let size := (get_ship_config game.mode).size
       let ships2 := defender.ships.map
         (fun s => if s = ship then { s with destroyed := true } else s)
       let newAttacks := markMissesAround size ship.cells
         (markSunk ship.cells (setCell attacker.attacks row col Cell.fire))
       let newBoard := markMissesAround size ship.cells
         (markSunk ship.cells (setCell defender.board row col Cell.fire))
       let attacker2 := { attacker with attacks := newAttacks }
       let defender2 := { defender with board := newBoard, ships := ships2, last_enemy_move := none, last_enemy_move_was_miss := false }
       let game1 := (game.set_player attacker_id attacker2).set_player (defender_of attacker_id) defender2
       ((if ships2.all (·.destroyed) then { game1 with winner := some attacker_id }
         else game1),
        .hitDestroyed { ship with destroyed := true })) := by
  have hb : ¬(row < 0 ∨ ((get_ship_config game.mode).size : Int) ≤ row ∨ col < 0 ∨
      ((get_ship_config game.mode).size : Int) ≤ col) := by
    simp only [inGrid, Bool.and_eq_true, decide_eq_true_eq] at hbound
    omega
  simp only [attack_cell, hA, hD]
  rw [if_neg hb, if_neg htrack, if_pos hship]
  simp only [hfind, hdes, if_true]

theorem attack_cell_no_players (game : GameState) (attacker_id : PlayerId) (row col : Int)
    (h : game.get_player attacker_id = none ∨ game.get_player (defender_of attacker_id) = none) :
    attack_cell game attacker_id row col = (game, .err .playerNotFound) := by
  rcases hA : game.get_player attacker_id with _ | attacker
  · simp only [attack_cell, hA]
  · rcases hD : game.get_player (defender_of attacker_id) with _ | defender
    · simp only [attack_cell, hA, hD]
    · rcases h with h | h
      · rw [hA] at h; cases h
      · rw [hD] at h; cases h

theorem attack_cell_oob (game : GameState) (attacker_id : PlayerId) (row col : Int)
    (attacker defender : Player)
    (hA : game.get_player attacker_id = some attacker)
    (hD : game.get_player (defender_of attacker_id) = some defender)
    (h : inGrid (get_ship_config game.mode).size row col = false) :
    attack_cell game attacker_id row col = (game, .err .outOfBounds) := by
  have hb : row < 0 ∨ ((get_ship_config game.mode).size : Int) ≤ row ∨ col < 0 ∨
      ((get_ship_config game.mode).size : Int) ≤ col := by
    simp only [inGrid, Bool.and_eq_false_iff, decide_eq_false_iff_not, not_le, not_lt] at h
    omega
  simp only [attack_cell, hA, hD]
  rw [if_pos hb]

theorem attack_cell_already (game : GameState) (attacker_id : PlayerId) (row col : Int)
    (attacker defender : Player)
    (hA : game.get_player attacker_id = some attacker)
    (hD : game.get_player (defender_of attacker_id) = some defender)
    (hbound : inGrid (get_ship_config game.mode).size row col = true)
    (h : cellAt attacker.attacks row col ∈ [Cell.dot, Cell.fire, Cell.cross]) :
    attack_cell game attacker_id row col = (game, .err .alreadyAttacked) := by
  have hb : ¬(row < 0 ∨ ((get_ship_config game.mode).size : Int) ≤ row ∨ col < 0 ∨
      ((get_ship_config game.mode).size : Int) ≤ col) := by
    simp only [inGrid, Bool.and_eq_true, decide_eq_true_eq] at hbound
    omega
  simp only [attack_cell, hA, hD]
  rw [if_neg hb, if_pos h]

theorem attack_cell_hit_no_ship_eq (game : GameState) (attacker_id : PlayerId)
    (row col : Int) (attacker defender : Player)
    (hA : game.get_player attacker_id = some attacker)
    (hD : game.get_player (defender_of attacker_id) = some defender)
    (hbound : inGrid (get_ship_config game.mode).size row col = true)
    (htrack : cellAt attacker.attacks row col ∉ [Cell.dot, Cell.fire, Cell.cross])
    (hship : cellAt defender.board row col = Cell.ship)
    (hfind : get_ship_at_cell defender.ships row col = none) :
    attack_cell game attacker_id row col =
      (((game.set_player attacker_id
          { attacker with attacks := setCell attacker.attacks row col Cell.fire }).set_player
        (defender_of attacker_id)
          { defender with
            board := setCell defender.board row col Cell.fire,
            last_enemy_move := none, last_enemy_move_was_miss := false }),
       .hitAlive) := by
  have hb : ¬(row < 0 ∨ ((get_ship_config game.mode).size : Int) ≤ row ∨ col < 0 ∨
      ((get_ship_config game.mode).size : Int) ≤ col) := by
    simp only [inGrid, Bool.and_eq_true, decide_eq_true_eq] at hbound
    omega
  simp only [attack_cell, hA, hD]
  rw [if_neg hb, if_neg htrack, if_pos hship]
  simp only [hfind]

/-- C7: whenever `attack_cell` reports an error (player missing, out of
bounds, or cell already attacked), the game state is returned unchanged:
validation precedes every mutation. -/
theorem attack_cell_error_no_mutation (game : GameState) (attacker_id : PlayerId)
    (row col : Int) (e : AttackError)
    (h : (attack_cell game attacker_id row col).2 = .err e) :
    (attack_cell game attacker_id row col).1 = game := by
  rcases hA : game.get_player attacker_id with _ | attacker
  · rw [attack_cell_no_players game attacker_id row col (Or.inl hA)]
  · rcases hD : game.get_player (defender_of attacker_id) with _ | defender
    · rw [attack_cell_no_players game attacker_id row col (Or.inr hD)]
    · cases hg : inGrid (get_ship_config game.mode).size row col
      · rw [attack_cell_oob game attacker_id row col attacker defender hA hD hg]
      · by_cases ht : cellAt attacker.attacks row col ∈ [Cell.dot, Cell.fire, Cell.cross]
        · rw [attack_cell_already game attacker_id row col attacker defender hA hD hg ht]
        · by_cases hs : cellAt defender.board row col = Cell.ship
          · rcases hf : get_ship_at_cell defender.ships row col with _ | ship
            · rw [attack_cell_hit_no_ship_eq game attacker_id row col attacker defender
                hA hD hg ht hs hf] at h
              cases h
            · cases hd : check_ship_destroyed ship (setCell defender.board row col Cell.fire)
              · rw [attack_cell_hit_alive_eq game attacker_id row col attacker defender ship
                  hA hD hg ht hs hf hd] at h
                cases h
              · rw [attack_cell_hit_destroyed_eq game attacker_id row col attacker defender ship
                  hA hD hg ht hs hf hd] at h
                simp only at h
                cases h
          · rw [attack_cell_miss_eq game attacker_id row col attacker defender
              hA hD hg ht hs] at h
            cases h


/-- A concrete `fast`-mode battle fixture: player 2 owns a single size-2
ship at cells `(0,0)` and `(0,1)`. -/
def samplePlayer1 : Player :=
  { ready := true, board := create_empty_board 6, attacks := create_empty_attacks 6,
    ships := [], last_enemy_move := none, last_enemy_move_was_miss := false }

def sampleShip : Ship :=
  { size := 2, cells := [(0, 0), (0, 1)], destroyed := false }

def samplePlayer2 : Player :=
  { ready := true, board := (place_ship (create_empty_board 6) 0 0 2 true).1,
    attacks := create_empty_attacks 6, ships := [sampleShip],
    last_enemy_move := none, last_enemy_move_was_miss := false }

def sampleGame : GameState :=
  { mode := .fast, is_timed := false, p1 := some samplePlayer1, p2 := some samplePlayer2,
    current_player := some .p1, winner := none, surrendered := none,
    last_move_time := none, last_move_info := none }

/-- C7 witness: attacking out of bounds on a concrete two-player game
leaves the state unchanged. -/
theorem attack_cell_error_no_mutation_witness :
    ((attack_cell sampleGame .p1 9 0).2 = .err .outOfBounds) ∧
      (attack_cell sampleGame .p1 9 0).1 = sampleGame :=
  ⟨by decide, attack_cell_error_no_mutation sampleGame .p1 9 0 .outOfBounds (by decide)⟩

theorem update_get_same (game : GameState) (aid : PlayerId) (A D : Player) :
    ((game.set_player aid A).set_player (defender_of aid) D).get_player aid = some A := by
  cases aid <;> rfl

theorem update_get_other (game : GameState) (aid : PlayerId) (A D : Player) :
    ((game.set_player aid A).set_player (defender_of aid) D).get_player (defender_of aid) =
      some D := by
  cases aid <;> rfl

theorem update_mode (game : GameState) (aid : PlayerId) (A D : Player) :
    ((game.set_player aid A).set_player (defender_of aid) D).mode = game.mode := by
  cases aid <;> rfl

theorem winner_update_get (game : GameState) (w : Option PlayerId) (pid : PlayerId) :
    ({ game with winner := w } : GameState).get_player pid = game.get_player pid := by
  cases pid <;> rfl

theorem winner_update_mode (game : GameState) (w : Option PlayerId) :
    ({ game with winner := w } : GameState).mode = game.mode := rfl

theorem mem_cells_of_find (ships : List Ship) (row col : Int) (ship : Ship)
    (h : get_ship_at_cell ships row col = some ship) :
    ship ∈ ships ∧ (row, col) ∈ ship.cells := by
  refine ⟨List.mem_of_find?_eq_some h, ?_⟩
  have := List.find?_some h
  simpa using this

theorem attack_cell_success_attacker (game : GameState) (aid : PlayerId) (row col : Int)
    (attacker defender : Player)
    (hA : game.get_player aid = some attacker)
    (hD : game.get_player (defender_of aid) = some defender)
    (hWFa : GridWF attacker.attacks (get_ship_config game.mode).size)
    (hShips : ∀ s ∈ defender.ships, ∀ p ∈ s.cells,
      inGrid (get_ship_config game.mode).size p.1 p.2 = true)
    (hbound : inGrid (get_ship_config game.mode).size row col = true)
    (hwater : cellAt attacker.attacks row col = Cell.water) :
    ∃ attacker' defender' : Player,
      (attack_cell game aid row col).1.get_player aid = some attacker' ∧
      (attack_cell game aid row col).1.get_player (defender_of aid) = some defender' ∧
      (attack_cell game aid row col).1.mode = game.mode ∧
      (∀ q1 q2 : Int, cellAt attacker'.attacks q1 q2 = cellAt attacker.attacks q1 q2 ∨
        cellAt attacker'.attacks q1 q2 = Cell.fire ∨
        cellAt attacker'.attacks q1 q2 = Cell.cross ∨
        cellAt attacker'.attacks q1 q2 = Cell.dot) ∧
      cellAt attacker'.attacks row col ∈ [Cell.dot, Cell.fire, Cell.cross] ∧
      defender'.attacks = defender.attacks := by
  have htrack : cellAt attacker.attacks row col ∉ [Cell.dot, Cell.fire, Cell.cross] := by
    rw [hwater]; simp
  by_cases hs : cellAt defender.board row col = Cell.ship
  · rcases hf : get_ship_at_cell defender.ships row col with _ | ship
    · rw [attack_cell_hit_no_ship_eq game aid row col attacker defender hA hD hbound htrack hs hf]
      refine ⟨_, _, update_get_same .., update_get_other .., update_mode .., ?_, ?_, rfl⟩
      · intro q1 q2
        rcases cellAt_setCell_or attacker.attacks row col Cell.fire q1 q2 with h | h
        · left; exact h
        · right; left; exact h
      · have := cellAt_setCell_same attacker.attacks (get_ship_config game.mode).size
          row col Cell.fire hWFa hbound
        simp [this]
    · cases hd : check_ship_destroyed ship (setCell defender.board row col Cell.fire)
      · rw [attack_cell_hit_alive_eq game aid row col attacker defender ship hA hD hbound
          htrack hs hf hd]
        refine ⟨_, _, update_get_same .., update_get_other .., update_mode .., ?_, ?_, rfl⟩
        · intro q1 q2
          rcases cellAt_setCell_or attacker.attacks row col Cell.fire q1 q2 with h | h
          · left; exact h
          · right; left; exact h
        · have := cellAt_setCell_same attacker.attacks (get_ship_config game.mode).size
            row col Cell.fire hWFa hbound
          simp [this]
      · rw [attack_cell_hit_destroyed_eq game aid row col attacker defender ship hA hD hbound
          htrack hs hf hd]
        simp only
        have hmem := mem_cells_of_find defender.ships row col ship hf
        have hcells : ∀ p ∈ ship.cells, inGrid (get_ship_config game.mode).size p.1 p.2 = true :=
          hShips ship hmem.1
        have hWF1 : GridWF (setCell attacker.attacks row col Cell.fire)
            (get_ship_config game.mode).size :=
          setCell_WF attacker.attacks (get_ship_config game.mode).size row col Cell.fire hWFa
        have hrc : cellAt
            (markMissesAround (get_ship_config game.mode).size ship.cells
              (markSunk ship.cells (setCell attacker.attacks row col Cell.fire))) row col =
            Cell.cross := by
          rw [markMissesAround, dotMarkFold_mem_cells _ _ _ _ row col hmem.2,
            markSunk_mem ship.cells _ (get_ship_config game.mode).size hWF1 hcells
              row col hmem.2]
        have hevol : ∀ q1 q2 : Int, cellAt
            (markMissesAround (get_ship_config game.mode).size ship.cells
              (markSunk ship.cells (setCell attacker.attacks row col Cell.fire))) q1 q2 =
              cellAt attacker.attacks q1 q2 ∨
            cellAt (markMissesAround (get_ship_config game.mode).size ship.cells
              (markSunk ship.cells (setCell attacker.attacks row col Cell.fire))) q1 q2 =
              Cell.fire ∨
            cellAt (markMissesAround (get_ship_config game.mode).size ship.cells
              (markSunk ship.cells (setCell attacker.attacks row col Cell.fire))) q1 q2 =
              Cell.cross ∨
            cellAt (markMissesAround (get_ship_config game.mode).size ship.cells
              (markSunk ship.cells (setCell attacker.attacks row col Cell.fire))) q1 q2 =
              Cell.dot := by
          intro q1 q2
          rw [markMissesAround]
          rcases dotMarkFold_or (get_ship_config game.mode).size ship.cells
            (neighborCandidates ship.cells)
            (markSunk ship.cells (setCell attacker.attacks row col Cell.fire)) q1 q2 with h | h
          · rw [h]
            rcases markSunk_or ship.cells (setCell attacker.attacks row col Cell.fire)
              q1 q2 with h2 | h2
            · rw [h2]
              rcases cellAt_setCell_or attacker.attacks row col Cell.fire q1 q2 with h3 | h3
              · left; exact h3
              · right; left; exact h3
            · right; right; left; exact h2
          · right; right; right; exact h
        split
        · exact ⟨_, _, (winner_update_get ..).trans (update_get_same ..),
            (winner_update_get ..).trans (update_get_other ..),
            (winner_update_mode ..).trans (update_mode ..),
            hevol, by simp [hrc], rfl⟩
        · exact ⟨_, _, update_get_same .., update_get_other .., update_mode ..,
            hevol, by simp [hrc], rfl⟩
  · rw [attack_cell_miss_eq game aid row col attacker defender hA hD hbound htrack hs]
    refine ⟨_, _, update_get_same .., update_get_other .., update_mode .., ?_, ?_, rfl⟩
    · intro q1 q2
      rcases cellAt_setCell_or attacker.attacks row col Cell.dot q1 q2 with h | h
      · left; exact h
      · right; right; right; exact h
    · have := cellAt_setCell_same attacker.attacks (get_ship_config game.mode).size
        row col Cell.dot hWFa hbound
      simp [this]

theorem getD_water_of_all (l : List Cell) (h : ∀ x ∈ l, x = Cell.water) (n : Nat) :
    l.getD n Cell.water = Cell.water := by
  induction l generalizing n with
  | nil => rfl
  | cons a t ih =>
    cases n with
    | zero => exact h a (List.mem_cons_self a t)
    | succ m => exact ih (fun x hx => h x (List.mem_cons_of_mem a hx)) m

/-- Every cell of a freshly created attacks grid is 🌊. -/
theorem cellAt_create_empty_attacks (size : Nat) (q1 q2 : Int) :
    cellAt (create_empty_attacks size) q1 q2 = Cell.water := by
  unfold cellAt create_empty_attacks
  split
  · rcases hn : (List.replicate size (List.replicate size Cell.water)).getD q1.toNat [] with _ | ⟨a, t⟩
    · rfl
    · refine getD_water_of_all _ ?_ q2.toNat
      intro x hx
      have hrow : (a :: t) ∈ List.replicate size (List.replicate size Cell.water) ∨
          (a :: t) = ([] : List Cell) := by
        by_cases hlt : q1.toNat < (List.replicate size (List.replicate size Cell.water)).length
        · left
          rw [← hn]
          exact getD_mem_of_lt _ q1.toNat hlt
        · right
          rw [← hn, List.getD_eq_getElem?_getD, List.getElem?_eq_none (by omega)]
          rfl
      rcases hrow with h | h
      · have := List.eq_of_mem_replicate h
        rw [this] at hx
        exact List.eq_of_mem_replicate hx
      · cases h
  · rfl

/-- A freshly created board or attacks grid is well-formed. -/
theorem create_empty_WF (size : Nat) : GridWF (create_empty_board size) size := by
  constructor
  · simp [create_empty_board]
  · intro r hr
    rw [List.eq_of_mem_replicate hr]
    simp

/-- C6: with both players present, `attack_cell` fails with the
out-of-bounds error whenever `(row, col)` lies outside the grid; otherwise
it fails with the already-attacked error whenever the attacker's tracking
grid at `(row, col)` is not Empty; and after any successful attack the
tracking cell is non-Empty (never reverting), so repeating the same attack
always fails with the already-attacked error. -/
theorem attack_cell_guards_and_idempotence
    (game : GameState) (attacker_id : PlayerId) (row col : Int)
    (attacker defender : Player)
    (hA : game.get_player attacker_id = some attacker)
    (hD : game.get_player (defender_of attacker_id) = some defender)
    (hWFa : GridWF attacker.attacks (get_ship_config game.mode).size)
    (hShips : ∀ s ∈ defender.ships, ∀ p ∈ s.cells,
      inGrid (get_ship_config game.mode).size p.1 p.2 = true)
    (hTrack : ∀ q1 q2 : Int, cellAt attacker.attacks q1 q2 = Cell.water ∨
      cellAt attacker.attacks q1 q2 = Cell.dot ∨ cellAt attacker.attacks q1 q2 = Cell.fire ∨
      cellAt attacker.attacks q1 q2 = Cell.cross) :
    (inGrid (get_ship_config game.mode).size row col = false →
      attack_cell game attacker_id row col = (game, .err .outOfBounds)) ∧
    (inGrid (get_ship_config game.mode).size row col = true →
      cellAt attacker.attacks row col ≠ Cell.water →
      attack_cell game attacker_id row col = (game, .err .alreadyAttacked)) ∧
    (inGrid (get_ship_config game.mode).size row col = true →
      cellAt attacker.attacks row col = Cell.water →
      ∃ attacker' : Player,
        (attack_cell game attacker_id row col).1.get_player attacker_id = some attacker' ∧
        (∀ q1 q2 : Int, cellAt attacker.attacks q1 q2 ≠ Cell.water →
          cellAt attacker'.attacks q1 q2 ≠ Cell.water) ∧
        (attack_cell (attack_cell game attacker_id row col).1 attacker_id row col).2 =
          .err .alreadyAttacked) := by
  refine ⟨fun h => attack_cell_oob game attacker_id row col attacker defender hA hD h, ?_, ?_⟩
  · intro hb hw
    have hmem : cellAt attacker.attacks row col ∈ [Cell.dot, Cell.fire, Cell.cross] := by
      rcases hTrack row col with h | h | h | h
      · exact absurd h hw
      all_goals simp [h]
    exact attack_cell_already game attacker_id row col attacker defender hA hD hb hmem
  · intro hb hw
    obtain ⟨A', D', hA', hD', hmode, hevol, hrc, hDatt⟩ :=
      attack_cell_success_attacker game attacker_id row col attacker defender hA hD
        hWFa hShips hb hw
    refine ⟨A', hA', ?_, ?_⟩
    · intro q1 q2 hq
      rcases hevol q1 q2 with h | h | h | h
      · rw [h]; exact hq
      all_goals rw [h]; simp
    · have hb2 : inGrid
          (get_ship_config (attack_cell game attacker_id row col).1.mode).size row col =
          true := by
        rw [hmode]; exact hb
      rw [attack_cell_already (attack_cell game attacker_id row col).1 attacker_id row col
        A' D' hA' hD' hb2 hrc]

/-- C6 witness: the guard conjunction instantiated on the concrete fixture,
with every hypothesis discharged. -/
theorem attack_cell_guards_and_idempotence_witness :
    (inGrid (get_ship_config sampleGame.mode).size 0 0 = false →
      attack_cell sampleGame .p1 0 0 = (sampleGame, .err .outOfBounds)) ∧
    (inGrid (get_ship_config sampleGame.mode).size 0 0 = true →
      cellAt samplePlayer1.attacks 0 0 ≠ Cell.water →
      attack_cell sampleGame .p1 0 0 = (sampleGame, .err .alreadyAttacked)) ∧
    (inGrid (get_ship_config sampleGame.mode).size 0 0 = true →
      cellAt samplePlayer1.attacks 0 0 = Cell.water →
      ∃ attacker' : Player,
        (attack_cell sampleGame .p1 0 0).1.get_player .p1 = some attacker' ∧
        (∀ q1 q2 : Int, cellAt samplePlayer1.attacks q1 q2 ≠ Cell.water →
          cellAt attacker'.attacks q1 q2 ≠ Cell.water) ∧
        (attack_cell (attack_cell sampleGame .p1 0 0).1 .p1 0 0).2 =
          .err .alreadyAttacked) :=
  attack_cell_guards_and_idempotence sampleGame .p1 0 0 samplePlayer1 samplePlayer2
    rfl rfl (by constructor <;> simp [samplePlayer1, create_empty_attacks, sampleGame, get_ship_config, GAME_MODES]) (by decide)
    (fun q1 q2 => Or.inl (cellAt_create_empty_attacks 6 q1 q2))

/-- C10: a tracking grid never contains 🟥.  Freshly created attack grids
are all-water, and one attack resolution preserves the property that every
cell of either player's attacks grid is water, dot, fire, or cross. -/
theorem tracking_grid_never_ship
    (game : GameState) (attacker_id : PlayerId) (row col : Int)
    (attacker defender : Player)
    (hA : game.get_player attacker_id = some attacker)
    (hD : game.get_player (defender_of attacker_id) = some defender)
    (hWFa : GridWF attacker.attacks (get_ship_config game.mode).size)
    (hShips : ∀ s ∈ defender.ships, ∀ p ∈ s.cells,
      inGrid (get_ship_config game.mode).size p.1 p.2 = true)
    (hTrackA : ∀ q1 q2 : Int, cellAt attacker.attacks q1 q2 = Cell.water ∨
      cellAt attacker.attacks q1 q2 = Cell.dot ∨ cellAt attacker.attacks q1 q2 = Cell.fire ∨
      cellAt attacker.attacks q1 q2 = Cell.cross)
    (hTrackD : ∀ q1 q2 : Int, cellAt defender.attacks q1 q2 = Cell.water ∨
      cellAt defender.attacks q1 q2 = Cell.dot ∨ cellAt defender.attacks q1 q2 = Cell.fire ∨
      cellAt defender.attacks q1 q2 = Cell.cross) :
    (∀ (size : Nat) (q1 q2 : Int), cellAt (create_empty_attacks size) q1 q2 = Cell.water) ∧
    (∀ A' : Player, (attack_cell game attacker_id row col).1.get_player attacker_id = some A' →
      ∀ q1 q2 : Int, cellAt A'.attacks q1 q2 = Cell.water ∨
        cellAt A'.attacks q1 q2 = Cell.dot ∨ cellAt A'.attacks q1 q2 = Cell.fire ∨
        cellAt A'.attacks q1 q2 = Cell.cross) ∧
    (∀ D' : Player,
      (attack_cell game attacker_id row col).1.get_player (defender_of attacker_id) = some D' →
      ∀ q1 q2 : Int, cellAt D'.attacks q1 q2 = Cell.water ∨
        cellAt D'.attacks q1 q2 = Cell.dot ∨ cellAt D'.attacks q1 q2 = Cell.fire ∨
        cellAt D'.attacks q1 q2 = Cell.cross) := by
  refine ⟨fun size q1 q2 => cellAt_create_empty_attacks size q1 q2, ?_⟩
  cases hbound : inGrid (get_ship_config game.mode).size row col
  · rw [attack_cell_oob game attacker_id row col attacker defender hA hD hbound]
    constructor
    · intro A' hA2 q1 q2
      rw [hA] at hA2
      cases Option.some.inj hA2
      exact hTrackA q1 q2
    · intro D' hD2 q1 q2
      rw [hD] at hD2
      cases Option.some.inj hD2
      exact hTrackD q1 q2
  · by_cases hcell : cellAt attacker.attacks row col ∈ [Cell.dot, Cell.fire, Cell.cross]
    · rw [attack_cell_already game attacker_id row col attacker defender hA hD hbound hcell]
      constructor
      · intro A' hA2 q1 q2
        rw [hA] at hA2
        cases Option.some.inj hA2
        exact hTrackA q1 q2
      · intro D' hD2 q1 q2
        rw [hD] at hD2
        cases Option.some.inj hD2
        exact hTrackD q1 q2
    · have hwater : cellAt attacker.attacks row col = Cell.water := by
        rcases hTrackA row col with h | h | h | h
        · exact h
        all_goals exact absurd (by simp [h]) hcell
      obtain ⟨A0, D0, hA0, hD0, hmode, hevol, hrc, hDatt⟩ :=
        attack_cell_success_attacker game attacker_id row col attacker defender hA hD
          hWFa hShips hbound hwater
      constructor
      · intro A' hA2 q1 q2
        rw [hA0] at hA2
        cases Option.some.inj hA2
        rcases hevol q1 q2 with h | h | h | h
        · rw [h]; exact hTrackA q1 q2
        · rw [h]; right; right; left; rfl
        · rw [h]; right; right; right; rfl
        · rw [h]; right; left; rfl
      · intro D' hD2 q1 q2
        rw [hD0] at hD2
        cases Option.some.inj hD2
        rw [hDatt]
        exact hTrackD q1 q2

/-- C10 witness: the invariant conjunction instantiated on the concrete
fixture, all hypotheses discharged. -/
theorem tracking_grid_never_ship_witness :
    (∀ (size : Nat) (q1 q2 : Int), cellAt (create_empty_attacks size) q1 q2 = Cell.water) ∧
    (∀ A' : Player, (attack_cell sampleGame .p1 0 0).1.get_player .p1 = some A' →
      ∀ q1 q2 : Int, cellAt A'.attacks q1 q2 = Cell.water ∨
        cellAt A'.attacks q1 q2 = Cell.dot ∨ cellAt A'.attacks q1 q2 = Cell.fire ∨
        cellAt A'.attacks q1 q2 = Cell.cross) ∧
    (∀ D' : Player,
      (attack_cell sampleGame .p1 0 0).1.get_player (defender_of .p1) = some D' →
      ∀ q1 q2 : Int, cellAt D'.attacks q1 q2 = Cell.water ∨
        cellAt D'.attacks q1 q2 = Cell.dot ∨ cellAt D'.attacks q1 q2 = Cell.fire ∨
        cellAt D'.attacks q1 q2 = Cell.cross) :=
  tracking_grid_never_ship sampleGame .p1 0 0 samplePlayer1 samplePlayer2 rfl rfl
    (by constructor <;> simp [samplePlayer1, create_empty_attacks, sampleGame,
      get_ship_config, GAME_MODES])
    (by decide)
    (fun q1 q2 => Or.inl (cellAt_create_empty_attacks 6 q1 q2))
    (fun q1 q2 => Or.inl (cellAt_create_empty_attacks 6 q1 q2))


theorem eightDeltas_sub_deltaPairs : ∀ d ∈ eightDeltas, d ∈ deltaPairs := by
  decide

/-- C3: an attack that hits the last un-hit cell of a defender ship reports
the ship destroyed, marks every ship cell ❌ on the attacker's tracking grid
and the defender's board, and marks every in-grid 8-neighbour of a ship cell
that was still 🌊 on both grids with ⚫ on both grids. -/
theorem attack_sinks_ship_marks
    (game : GameState) (attacker_id : PlayerId) (row col : Int)
    (attacker defender : Player) (ship : Ship)
    (hA : game.get_player attacker_id = some attacker)
    (hD : game.get_player (defender_of attacker_id) = some defender)
    (hbound : inGrid (get_ship_config game.mode).size row col = true)
    (hwater : cellAt attacker.attacks row col = Cell.water)
    (hship : cellAt defender.board row col = Cell.ship)
    (hfind : get_ship_at_cell defender.ships row col = some ship)
    (hlast : ∀ p ∈ ship.cells, p ≠ (row, col) → cellAt defender.board p.1 p.2 = Cell.fire)
    (hWFa : GridWF attacker.attacks (get_ship_config game.mode).size)
    (hWFb : GridWF defender.board (get_ship_config game.mode).size)
    (hcells : ∀ p ∈ ship.cells, inGrid (get_ship_config game.mode).size p.1 p.2 = true) :
    (attack_cell game attacker_id row col).2 = .hitDestroyed { ship with destroyed := true } ∧
    ∃ A2 D2 : Player,
      (attack_cell game attacker_id row col).1.get_player attacker_id = some A2 ∧
      (attack_cell game attacker_id row col).1.get_player (defender_of attacker_id) = some D2 ∧
      (∀ p ∈ ship.cells, cellAt A2.attacks p.1 p.2 = Cell.cross ∧
        cellAt D2.board p.1 p.2 = Cell.cross) ∧
      (∀ p ∈ ship.cells, ∀ d ∈ eightDeltas,
        inGrid (get_ship_config game.mode).size (p.1 + d.1) (p.2 + d.2) = true →
        cellAt attacker.attacks (p.1 + d.1) (p.2 + d.2) = Cell.water →
        cellAt defender.board (p.1 + d.1) (p.2 + d.2) = Cell.water →
        cellAt A2.attacks (p.1 + d.1) (p.2 + d.2) = Cell.dot ∧
        cellAt D2.board (p.1 + d.1) (p.2 + d.2) = Cell.dot) := by
  have hmem := mem_cells_of_find defender.ships row col ship hfind
  have htrack : cellAt attacker.attacks row col ∉ [Cell.dot, Cell.fire, Cell.cross] := by
    rw [hwater]; simp
  have hdes : check_ship_destroyed ship (setCell defender.board row col Cell.fire) = true := by
    rw [check_ship_destroyed, List.all_eq_true]
    intro p hp
    by_cases hpe : p = (row, col)
    · have h1 : p.1 = row := congrArg Prod.fst hpe
      have h2 : p.2 = col := congrArg Prod.snd hpe
      rw [h1, h2, cellAt_setCell_same defender.board (get_ship_config game.mode).size
        row col Cell.fire hWFb hbound]
      rfl
    · rw [show p.1 = (p.1, p.2).1 from rfl, show p.2 = (p.1, p.2).2 from rfl,
        cellAt_setCell_ne defender.board row col Cell.fire p.1 p.2 (by simpa using hpe)]
      rw [hlast p hp hpe]
      rfl
  rw [attack_cell_hit_destroyed_eq game attacker_id row col attacker defender ship hA hD
    hbound htrack hship hfind hdes]
  simp only
  -- facts about the marked grids
  have hWFa1 : GridWF (setCell attacker.attacks row col Cell.fire)
      (get_ship_config game.mode).size :=
    setCell_WF attacker.attacks _ row col Cell.fire hWFa
  have hWFb1 : GridWF (setCell defender.board row col Cell.fire)
      (get_ship_config game.mode).size :=
    setCell_WF defender.board _ row col Cell.fire hWFb
  have hcross : ∀ g : Grid, GridWF g (get_ship_config game.mode).size →
      ∀ p ∈ ship.cells,
      cellAt (markMissesAround (get_ship_config game.mode).size ship.cells
        (markSunk ship.cells g)) p.1 p.2 = Cell.cross := by
    intro g hg p hp
    rw [markMissesAround, dotMarkFold_mem_cells _ _ _ _ p.1 p.2 hp,
      markSunk_mem ship.cells g (get_ship_config game.mode).size hg hcells p.1 p.2 hp]
  have hdots : ∀ g : Grid, GridWF g (get_ship_config game.mode).size →
      ∀ n1 n2 : Int, (n1, n2) ∈ neighborCandidates ship.cells →
      inGrid (get_ship_config game.mode).size n1 n2 = true →
      (n1, n2) ∉ ship.cells → cellAt g n1 n2 = Cell.water →
      cellAt (markMissesAround (get_ship_config game.mode).size ship.cells
        (markSunk ship.cells g)) n1 n2 = Cell.dot := by
    intro g hg n1 n2 hcand hinb hnc hw
    rw [markMissesAround]
    refine dotMarkFold_target (get_ship_config game.mode).size ship.cells
      (neighborCandidates ship.cells) (markSunk ship.cells g) n1 n2
      (markSunk_WF ship.cells g _ hg) hcand hinb hnc ?_
    rw [markSunk_not_mem ship.cells g n1 n2 hnc, hw]
  -- the hit cell belongs to the ship, so any both-water neighbour is not a ship cell
  have hnc_of_water : ∀ n1 n2 : Int, cellAt defender.board n1 n2 = Cell.water →
      (n1, n2) ∉ ship.cells := by
    intro n1 n2 hw hn
    by_cases hne : (n1, n2) = (row, col)
    · have h1 : n1 = row := congrArg Prod.fst hne
      have h2 : n2 = col := congrArg Prod.snd hne
      rw [h1, h2, hship] at hw
      cases hw
    · rw [hlast (n1, n2) hn hne] at hw
      cases hw
  refine ⟨trivial, ?_⟩
  have hmain : (∀ p ∈ ship.cells,
      cellAt (markMissesAround (get_ship_config game.mode).size ship.cells
        (markSunk ship.cells (setCell attacker.attacks row col Cell.fire))) p.1 p.2 =
        Cell.cross ∧
      cellAt (markMissesAround (get_ship_config game.mode).size ship.cells
        (markSunk ship.cells (setCell defender.board row col Cell.fire))) p.1 p.2 =
        Cell.cross) ∧
      (∀ p ∈ ship.cells, ∀ d ∈ eightDeltas,
        inGrid (get_ship_config game.mode).size (p.1 + d.1) (p.2 + d.2) = true →
        cellAt attacker.attacks (p.1 + d.1) (p.2 + d.2) = Cell.water →
        cellAt defender.board (p.1 + d.1) (p.2 + d.2) = Cell.water →
        cellAt (markMissesAround (get_ship_config game.mode).size ship.cells
          (markSunk ship.cells (setCell attacker.attacks row col Cell.fire)))
          (p.1 + d.1) (p.2 + d.2) = Cell.dot ∧
        cellAt (markMissesAround (get_ship_config game.mode).size ship.cells
          (markSunk ship.cells (setCell defender.board row col Cell.fire)))
          (p.1 + d.1) (p.2 + d.2) = Cell.dot) := by
    constructor
    · intro p hp
      exact ⟨hcross _ hWFa1 p hp, hcross _ hWFb1 p hp⟩
    · intro p hp d hd hinb hwA hwB
      have hnc : (p.1 + d.1, p.2 + d.2) ∉ ship.cells := hnc_of_water _ _ hwB
      have hcand : (p.1 + d.1, p.2 + d.2) ∈ neighborCandidates ship.cells := by
        refine List.mem_flatMap.mpr ⟨p, hp, ?_⟩
        exact List.mem_map.mpr ⟨d, eightDeltas_sub_deltaPairs d hd, rfl⟩
      have hneq : (p.1 + d.1, p.2 + d.2) ≠ (row, col) := by
        intro he
        exact hnc (he ▸ hmem.2)
      constructor
      · refine hdots _ hWFa1 _ _ hcand hinb hnc ?_
        rw [cellAt_setCell_ne attacker.attacks row col Cell.fire _ _ hneq]
        exact hwA
      · refine hdots _ hWFb1 _ _ hcand hinb hnc ?_
        rw [cellAt_setCell_ne defender.board row col Cell.fire _ _ hneq]
        exact hwB
  split
  · exact ⟨_, _, (winner_update_get ..).trans (update_get_same ..),
      (winner_update_get ..).trans (update_get_other ..), hmain.1, hmain.2⟩
  · exact ⟨_, _, update_get_same .., update_get_other .., hmain.1, hmain.2⟩

/-- Fixture for the sinking scenario: player 1 has already hit `(0,0)` of
player 2's size-2 ship; attacking `(0,1)` sinks it. -/
def midPlayer1 : Player :=
  { samplePlayer1 with attacks := setCell (create_empty_attacks 6) 0 0 Cell.fire }

def midPlayer2 : Player :=
  { samplePlayer2 with board := setCell samplePlayer2.board 0 0 Cell.fire }

def midGame : GameState :=
  { sampleGame with p1 := some midPlayer1, p2 := some midPlayer2 }

/-- C3 witness: the sinking attack on the concrete fixture, every hypothesis
discharged. -/
theorem attack_sinks_ship_marks_witness :
    (attack_cell midGame .p1 0 1).2 = .hitDestroyed { sampleShip with destroyed := true } ∧
    ∃ A2 D2 : Player,
      (attack_cell midGame .p1 0 1).1.get_player .p1 = some A2 ∧
      (attack_cell midGame .p1 0 1).1.get_player (defender_of .p1) = some D2 ∧
      (∀ p ∈ sampleShip.cells, cellAt A2.attacks p.1 p.2 = Cell.cross ∧
        cellAt D2.board p.1 p.2 = Cell.cross) ∧
      (∀ p ∈ sampleShip.cells, ∀ d ∈ eightDeltas,
        inGrid (get_ship_config midGame.mode).size (p.1 + d.1) (p.2 + d.2) = true →
        cellAt midPlayer1.attacks (p.1 + d.1) (p.2 + d.2) = Cell.water →
        cellAt midPlayer2.board (p.1 + d.1) (p.2 + d.2) = Cell.water →
        cellAt A2.attacks (p.1 + d.1) (p.2 + d.2) = Cell.dot ∧
        cellAt D2.board (p.1 + d.1) (p.2 + d.2) = Cell.dot) :=
  attack_sinks_ship_marks midGame .p1 0 1 midPlayer1 midPlayer2 sampleShip rfl rfl
    (by decide) (by decide) (by decide) (by decide) (by decide)
    ⟨by decide, by decide⟩ ⟨by decide, by decide⟩ (by decide)


theorem update_winner (game : GameState) (aid : PlayerId) (A D : Player) :
    ((game.set_player aid A).set_player (defender_of aid) D).winner = game.winner := by
  cases aid <;> rfl

theorem dotMarkFold_not_water (size : Nat) (cells l : List (Int × Int)) (g : Grid)
    (q1 q2 : Int) (h : cellAt g q1 q2 ≠ Cell.water) :
    cellAt (dotMarkFold size cells l g) q1 q2 = cellAt g q1 q2 := by
  induction l generalizing g with
  | nil => rfl
  | cons n t ih =>
    rw [dotMarkFold, List.foldl_cons,
      show List.foldl (dotStep size cells) (dotStep size cells g n) t =
        dotMarkFold size cells t (dotStep size cells g n) from rfl]
    have hstep : cellAt (dotStep size cells g n) q1 q2 = cellAt g q1 q2 := by
      by_cases hqn : (q1, q2) = n
      · have h1 : q1 = n.1 := congrArg Prod.fst hqn
        have h2 : q2 = n.2 := congrArg Prod.snd hqn
        unfold dotStep
        split
        · next hcond =>
          exact absurd (h1 ▸ h2 ▸ hcond.2.2) h
        · rfl
      · unfold dotStep
        split
        · exact cellAt_setCell_ne g n.1 n.2 Cell.dot q1 q2 hqn
        · rfl
    rw [ih _ (by rw [hstep]; exact h), hstep]

/-- C4: assuming the reachable-state fleet invariants (destroyed ships are
fully ❌, live ships are 🟥/🔥 with at least one 🟥, distinct ships are
disjoint, no winner yet, and some ship still alive), an attack resolution
sets the winner to the attacker iff afterwards every cell of every defender
ship is hit (🔥 or ❌); and a set winner means the game is over. -/
theorem winner_iff_all_ships_hit
    (game : GameState) (attacker_id : PlayerId) (row col : Int)
    (attacker defender : Player)
    (hA : game.get_player attacker_id = some attacker)
    (hD : game.get_player (defender_of attacker_id) = some defender)
    (hbound : inGrid (get_ship_config game.mode).size row col = true)
    (hwater : cellAt attacker.attacks row col = Cell.water)
    (hWFb : GridWF defender.board (get_ship_config game.mode).size)
    (hAllCells : ∀ s ∈ defender.ships, ∀ p ∈ s.cells,
      inGrid (get_ship_config game.mode).size p.1 p.2 = true)
    (hDisj : ∀ s1 ∈ defender.ships, ∀ s2 ∈ defender.ships, s1 ≠ s2 →
      ∀ p : Int × Int, p ∈ s1.cells → p ∉ s2.cells)
    (hWinner : game.winner = none)
    (hInv1 : ∀ s ∈ defender.ships, s.destroyed = true →
      ∀ p ∈ s.cells, cellAt defender.board p.1 p.2 = Cell.cross)
    (hInv2 : ∀ s ∈ defender.ships, s.destroyed = false →
      ∀ p ∈ s.cells, cellAt defender.board p.1 p.2 = Cell.ship ∨
        cellAt defender.board p.1 p.2 = Cell.fire)
    (hInv3 : ∀ s ∈ defender.ships, s.destroyed = false →
      ∃ p ∈ s.cells, cellAt defender.board p.1 p.2 = Cell.ship)
    (hAlive : ∃ s ∈ defender.ships, s.destroyed = false) :
    ∃ D2 : Player,
      (attack_cell game attacker_id row col).1.get_player (defender_of attacker_id) =
        some D2 ∧
      (((attack_cell game attacker_id row col).1.winner = some attacker_id) ↔
        (∀ s ∈ D2.ships, ∀ p ∈ s.cells, cellAt D2.board p.1 p.2 = Cell.fire ∨
          cellAt D2.board p.1 p.2 = Cell.cross)) ∧
      ((attack_cell game attacker_id row col).1.winner = some attacker_id →
        check_game_over (attack_cell game attacker_id row col).1 = true) := by
  have htrack : cellAt attacker.attacks row col ∉ [Cell.dot, Cell.fire, Cell.cross] := by
    rw [hwater]; simp
  by_cases hs : cellAt defender.board row col = Cell.ship
  · rcases hf : get_ship_at_cell defender.ships row col with _ | ship
    · -- a ship cell with no owning ship: no sinking, winner unchanged
      rw [attack_cell_hit_no_ship_eq game attacker_id row col attacker defender hA hD hbound
        htrack hs hf]
      refine ⟨_, update_get_other .., ?_, ?_⟩
      · rw [update_winner, hWinner]
        have hnone := List.find?_eq_none.mp hf
        obtain ⟨s0, hs0, hs0d⟩ := hAlive
        obtain ⟨p0, hp0, hp0s⟩ := hInv3 s0 hs0 hs0d
        have hp0ne : p0 ≠ (row, col) := by
          intro he
          have := hnone s0 hs0
          simp only [decide_eq_true_eq] at this
          exact this (he ▸ hp0)
        constructor
        · intro h; cases h
        · intro h
          have := h s0 hs0 p0 hp0
          rw [cellAt_setCell_ne defender.board row col Cell.fire p0.1 p0.2
            (by simpa using hp0ne), hp0s] at this
          rcases this with h1 | h1 <;> cases h1
      · intro h
        rw [update_winner, hWinner] at h
        cases h
    · have hmem := mem_cells_of_find defender.ships row col ship hf
      have hsd : ship.destroyed = false := by
        cases hsd : ship.destroyed
        · rfl
        · have := hInv1 ship hmem.1 hsd (row, col) hmem.2
          rw [this] at hs
          cases hs
      cases hd : check_ship_destroyed ship (setCell defender.board row col Cell.fire)
      · -- hit but not sunk: winner unchanged, and some cell of the ship is still 🟥
        rw [attack_cell_hit_alive_eq game attacker_id row col attacker defender ship hA hD
          hbound htrack hs hf hd]
        refine ⟨_, update_get_other .., ?_, ?_⟩
        · rw [update_winner, hWinner]
          have hne : ¬ (check_ship_destroyed ship (setCell defender.board row col Cell.fire) =
              true) := by rw [hd]; simp
          rw [check_ship_destroyed, List.all_eq_true] at hne
          push_neg at hne
          obtain ⟨p0, hp0, hp0f⟩ := hne
          have hp0ne : p0 ≠ (row, col) := by
            intro he
            have h1 : p0.1 = row := congrArg Prod.fst he
            have h2 : p0.2 = col := congrArg Prod.snd he
            rw [h1, h2, cellAt_setCell_same defender.board
              (get_ship_config game.mode).size row col Cell.fire hWFb hbound] at hp0f
            simp at hp0f
          have hp0v : cellAt defender.board p0.1 p0.2 = Cell.ship := by
            rcases hInv2 ship hmem.1 hsd p0 hp0 with h1 | h1
            · exact h1
            · rw [cellAt_setCell_ne defender.board row col Cell.fire p0.1 p0.2
                (by simpa using hp0ne), h1] at hp0f
              simp at hp0f
          constructor
          · intro h; cases h
          · intro h
            have := h ship hmem.1 p0 hp0
            rw [cellAt_setCell_ne defender.board row col Cell.fire p0.1 p0.2
              (by simpa using hp0ne), hp0v] at this
            rcases this with h1 | h1 <;> cases h1
        · intro h
          rw [update_winner, hWinner] at h
          cases h
      · -- the ship sinks
        rw [attack_cell_hit_destroyed_eq game attacker_id row col attacker defender ship hA hD
          hbound htrack hs hf hd]
        simp only
        have hWFb1 : GridWF (setCell defender.board row col Cell.fire)
            (get_ship_config game.mode).size :=
          setCell_WF defender.board _ row col Cell.fire hWFb
        have hB3cells : ∀ p ∈ ship.cells,
            cellAt (markMissesAround (get_ship_config game.mode).size ship.cells
              (markSunk ship.cells (setCell defender.board row col Cell.fire))) p.1 p.2 =
            Cell.cross := by
          intro p hp
          rw [markMissesAround, dotMarkFold_mem_cells _ _ _ _ p.1 p.2 hp,
            markSunk_mem ship.cells _ (get_ship_config game.mode).size hWFb1
              (hAllCells ship hmem.1) p.1 p.2 hp]
        have hB3other : ∀ p : Int × Int, p ∉ ship.cells →
            cellAt defender.board p.1 p.2 ≠ Cell.water →
            cellAt (markMissesAround (get_ship_config game.mode).size ship.cells
              (markSunk ship.cells (setCell defender.board row col Cell.fire))) p.1 p.2 =
            cellAt defender.board p.1 p.2 := by
          intro p hp hw
          have hpne : p ≠ (row, col) := fun he => hp (he ▸ hmem.2)
          have hset : cellAt (setCell defender.board row col Cell.fire) p.1 p.2 =
              cellAt defender.board p.1 p.2 :=
            cellAt_setCell_ne defender.board row col Cell.fire p.1 p.2 (by simpa using hpne)
          rw [markMissesAround, dotMarkFold_not_water _ _ _ _ p.1 p.2
            (by rw [markSunk_not_mem ship.cells _ p.1 p.2 hp, hset]; exact hw),
            markSunk_not_mem ship.cells _ p.1 p.2 hp, hset]
        cases hall : (defender.ships.map
            (fun s => if s = ship then { s with destroyed := true } else s)).all (·.destroyed)
        · -- not all ships destroyed: winner stays none, some other ship has a 🟥 cell
          rw [if_neg (show ¬(false = true) by simp)]
          refine ⟨_, update_get_other .., ?_, ?_⟩
          · rw [update_winner, hWinner]
            have hne : ¬ ((defender.ships.map
                (fun s => if s = ship then { s with destroyed := true } else s)).all
                  (·.destroyed) = true) := by rw [hall]; simp
            rw [List.all_eq_true] at hne
            push_neg at hne
            obtain ⟨s', hs', hs'd⟩ := hne
            obtain ⟨s, hsm, hseq⟩ := List.mem_map.1 hs'
            have he : s ≠ ship := by
              intro he
              rw [if_pos he] at hseq
              rw [← hseq] at hs'd
              simp at hs'd
            rw [if_neg he] at hseq
            subst hseq
            have hsdf : s.destroyed = false := Bool.eq_false_iff.mpr hs'd
            obtain ⟨p0, hp0, hp0s⟩ := hInv3 s hsm hsdf
            constructor
            · intro h; cases h
            · intro h
              have hp0n : p0 ∉ ship.cells := hDisj s hsm ship hmem.1 he p0 hp0
              have := h s hs' p0 hp0
              rw [hB3other p0 hp0n (by rw [hp0s]; simp), hp0s] at this
              rcases this with h1 | h1 <;> cases h1
          · intro h
            rw [update_winner, hWinner] at h
            cases h
        · -- all ships destroyed: winner is the attacker and every cell is hit
          rw [if_pos (show (true = true) from rfl)]
          refine ⟨_, (winner_update_get ..).trans (update_get_other ..), ?_, ?_⟩
          · constructor
            · intro _ s' hs' p hp
              obtain ⟨s, hsm, hseq⟩ := List.mem_map.1 hs'
              rw [List.all_eq_true] at hall
              by_cases he : s = ship
              · rw [if_pos he] at hseq
                right
                have hpc : p ∈ ship.cells := by
                  rw [← hseq] at hp
                  simp only at hp
                  exact he ▸ hp
                exact hB3cells p hpc
              · rw [if_neg he] at hseq
                have hsd2 : s.destroyed = true := by
                  have := hall s' hs'
                  rw [← hseq] at this
                  exact this
                have hcross := hInv1 s hsm hsd2 p (by rw [← hseq] at hp; exact hp)
                right
                have hpn : p ∉ ship.cells := hDisj s hsm ship hmem.1 he p
                  (by rw [← hseq] at hp; exact hp)
                rw [hB3other p hpn (by rw [hcross]; simp), hcross]
            · intro _
              rfl
          · intro _
            rw [check_game_over]
            simp
  · -- plain miss: winner unchanged and some ship cell is still 🟥
    rw [attack_cell_miss_eq game attacker_id row col attacker defender hA hD hbound htrack hs]
    refine ⟨_, update_get_other .., ?_, ?_⟩
    · rw [update_winner, hWinner]
      obtain ⟨s0, hs0, hs0d⟩ := hAlive
      obtain ⟨p0, hp0, hp0s⟩ := hInv3 s0 hs0 hs0d
      have hp0ne : p0 ≠ (row, col) := by
        intro he
        have h1 : p0.1 = row := congrArg Prod.fst he
        have h2 : p0.2 = col := congrArg Prod.snd he
        rw [h1, h2] at hp0s
        exact hs hp0s
      have hval : cellAt (if cellAt defender.board row col = Cell.water then
          setCell defender.board row col Cell.dot else defender.board) p0.1 p0.2 =
          cellAt defender.board p0.1 p0.2 := by
        split
        · exact cellAt_setCell_ne defender.board row col Cell.dot p0.1 p0.2
            (by simpa using hp0ne)
        · rfl
      constructor
      · intro h; cases h
      · intro h
        have := h s0 hs0 p0 hp0
        rw [hval, hp0s] at this
        rcases this with h1 | h1 <;> cases h1
    · intro h
      rw [update_winner, hWinner] at h
      cases h

/-- C4 witness: sinking the last ship on the concrete fixture, every
hypothesis discharged. -/
theorem winner_iff_all_ships_hit_witness :
    ∃ D2 : Player,
      (attack_cell midGame .p1 0 1).1.get_player (defender_of .p1) = some D2 ∧
      (((attack_cell midGame .p1 0 1).1.winner = some .p1) ↔
        (∀ s ∈ D2.ships, ∀ p ∈ s.cells, cellAt D2.board p.1 p.2 = Cell.fire ∨
          cellAt D2.board p.1 p.2 = Cell.cross)) ∧
      ((attack_cell midGame .p1 0 1).1.winner = some .p1 →
        check_game_over (attack_cell midGame .p1 0 1).1 = true) :=
  winner_iff_all_ships_hit midGame .p1 0 1 midPlayer1 midPlayer2 rfl rfl
    (by decide) (by decide) ⟨by decide, by decide⟩ (by decide) (by decide) rfl
    (by decide) (by decide) (by decide) (by decide)


inductive Phase
  | lobby
  | setup
  | battle
deriving DecidableEq, Repr

/-- The phase computation of `api_attack` (bot.py): battle iff both players
joined and both are ready. -/
def api_phase (g : GameState) : Phase :=
  match g.p1, g.p2 with
  | some a, some b => if a.ready && b.ready then .battle else .setup
  | _, _ => .lobby

inductive CallbackAttackRes
  | notYourTurn
  | gameAlreadyOver
  | attackError (e : AttackError)
  | ok (r : AttackResult)
deriving DecidableEq, Repr

/-- `callback_attack` (bot.py): the state-machine part of the Telegram
attack handler.  Turn check, game-over check, `attack_cell`, the timed
`last_move_time` refresh, the `last_move_info` message, and the turn flip on
a miss; message sending is out of scope.  `now` stands for
`datetime.now().timestamp()`. -/
def callback_attack (game : GameState) (player_id : PlayerId) (row col : Int) (now : ℚ) :
    GameState × CallbackAttackRes :=
  if game.current_player ≠ some player_id then (game, .notYourTurn)
  else if check_game_over game then (game, .gameAlreadyOver)
  else
    match attack_cell game player_id row col with
    | (_, .err e) => (game, .attackError e)
    | (game1, r) =>
      let game2 := if game1.is_timed then { game1 with last_move_time := some now } else game1
      match r with
      | .hitDestroyed s =>
        ({ game2 with last_move_info := some .destroyedMsg }, .ok (.hitDestroyed s))
      | .hitAlive =>
        ({ game2 with last_move_info := some .hitMsg }, .ok .hitAlive)
      | _ =>
        let game3 := { game2 with last_move_info := some .missMsg, current_player := some (defender_of player_id) }
        ((if game3.is_timed then { game3 with last_move_time := some now } else game3),
          .ok .miss)

inductive ApiAttackRes
  | wrongPhase
  | notYourTurn
  | attackError (e : AttackError)
  | ok (r : AttackResult)
deriving DecidableEq, Repr

/-- `api_attack` (bot.py): the Flask HTTP attack handler.  It checks the
phase computed from readiness flags and the turn, calls `attack_cell`, and
refreshes `last_move_time`.  It never changes `current_player`, and its
`end_game(game)` call on a winner is an un-awaited coroutine with no effect
on the state. -/
def api_attack (game : GameState) (player_id : PlayerId) (row col : Int) (now : ℚ) :
    GameState × ApiAttackRes :=
  if api_phase game ≠ .battle then (game, .wrongPhase)
  else if game.current_player ≠ some player_id then (game, .notYourTurn)
  else
    match attack_cell game player_id row col with
    | (_, .err e) => (game, .attackError e)
    | (game1, r) => ({ game1 with last_move_time := some now }, .ok r)

inductive SurrenderRes
  | gameAlreadyOver
  | ok
deriving DecidableEq, Repr

/-- `callback_surrender` (bot.py): records the surrendering player id and
hands the win to the opponent; the subsequent `end_game` (messages and
registry removal) is outside the game state. -/
def callback_surrender (game : GameState) (player_id : PlayerId) :
    GameState × SurrenderRes :=
  if check_game_over game then (game, .gameAlreadyOver)
  else ({ game with surrendered := some (.pid player_id), winner := some (defender_of player_id) }, .ok)

/-- `api_surrender` (bot.py): stores the boolean `True` in `surrendered`
(not the player id, despite the field's `Optional[Literal]` annotation in
models.py) and calls the async `end_game` without awaiting it, so no
further state change happens. -/
def api_surrender (game : GameState) (player_id : PlayerId) : GameState :=
  { game with surrendered := some .boolTrue, winner := some (defender_of player_id) }

/-- Python `datetime.now().timestamp() % 2 == 0` for a (rational) float
timestamp: true iff the timestamp is an even integer. -/
def timestampModTwoIsZero (t : ℚ) : Bool :=
  t.den == 1 && t.num % 2 == 0

/-- `start_battle` (bot.py): picks the starting player from the clock
parity and initializes the turn timer if the game is timed (message
deletion and sending omitted). -/
def start_battle (game : GameState) (now : ℚ) : GameState :=
  if game.is_ready_to_start = false then game
  else
    let game := { game with current_player := some (if timestampModTwoIsZero now then PlayerId.p1 else PlayerId.p2) }
    if game.is_timed then { game with last_move_time := some now } else game

/-- A random source for `auto_place_ships`: per restart, the result of
`random.shuffle` on the configured size list, and per ship index and
attempt, the drawn `(horizontal, row seed, col seed)`.  `randint(0, k)` on
a seed `n` is modeled as `n % (k + 1)`. -/
structure PlacementOracle where
  shuffles : Nat → List Nat
  choices : Nat → Nat → Nat → Bool × Nat × Nat

/-- The per-ship `while not placed and attempts < 100` loop of
`auto_place_ships` (game_logic.py). -/
def try_place_ship (board : Grid) (size ship_size : Nat)
    (ch : Nat → Bool × Nat × Nat) : Nat → Nat → Option (Grid × List (Int × Int))
  | _, 0 => none
  | attempt, rem + 1 =>
    let c := ch attempt
    let row : Int := if c.1 then ((c.2.1 % size : Nat) : Int)
      else ((c.2.1 % (size - ship_size + 1) : Nat) : Int)
    let col : Int := if c.1 then ((c.2.2 % (size - ship_size + 1) : Nat) : Int)
      else ((c.2.2 % size : Nat) : Int)
    if validate_ship_placement board size row col ship_size c.1 then
      some (place_ship board row col ship_size c.1)
    else try_place_ship board size ship_size ch (attempt + 1) rem

/-- One full pass of `auto_place_ships` over an already-shuffled size
list; `none` when some size exhausts its 100-attempt budget. -/
def auto_place_attempt (size : Nat) (shuffled : List Nat)
    (ch : Nat → Nat → Bool × Nat × Nat) (shipIdx : Nat) (board : Grid)
    (ships : List Ship) : Option (Grid × List Ship) :=
  match shuffled with
  | [] => some (board, ships)
  | s :: rest =>
    match try_place_ship board size s (ch shipIdx) 0 100 with
    | some res =>
      auto_place_attempt size rest ch (shipIdx + 1) res.1
        (ships ++ [{ size := s, cells := res.2, destroyed := false }])
    | none => none

/-- `auto_place_ships(mode)` (game_logic.py) with its restart recursion
made explicit: on a failed pass the source calls itself again with a fresh
shuffle, with no restart bound and no terminal error; `fuel` bounds how
many restarts are examined, `r` indexes the restart. -/
def auto_place_ships_fuel (mode : Mode) (oracle : PlacementOracle) :
    Nat → Nat → Option (Grid × List Ship)
  | _, 0 => none
  | r, fuel + 1 =>
    match auto_place_attempt (get_ship_config mode).size (oracle.shuffles r)
        (oracle.choices r) 0 (create_empty_board (get_ship_config mode).size) [] with
    | some result => some result
    | none => auto_place_ships_fuel mode oracle (r + 1) fuel

/-- An adversarial but legitimate random source: every shuffle leaves the
classic size list in its original order (a possible shuffle outcome) and
every placement proposal is horizontal at `(0, 0)` (in-range randint
results). -/
def stuckOracle : PlacementOracle :=
  { shuffles := fun _ => [3, 3, 2, 2, 1, 1, 1, 1],
    choices := fun _ _ _ => (true, 0, 0) }

theorem update_current (game : GameState) (aid : PlayerId) (A D : Player) :
    ((game.set_player aid A).set_player (defender_of aid) D).current_player =
      game.current_player := by
  cases aid <;> rfl

theorem winner_update_current (game : GameState) (w : Option PlayerId) :
    ({ game with winner := w } : GameState).current_player = game.current_player := rfl

/-- `attack_cell` never touches the turn pointer. -/
theorem attack_cell_current_player (game : GameState) (aid : PlayerId) (row col : Int) :
    (attack_cell game aid row col).1.current_player = game.current_player := by
  rcases hA : game.get_player aid with _ | attacker
  · rw [attack_cell_no_players game aid row col (Or.inl hA)]
  · rcases hD : game.get_player (defender_of aid) with _ | defender
    · rw [attack_cell_no_players game aid row col (Or.inr hD)]
    · cases hg : inGrid (get_ship_config game.mode).size row col
      · rw [attack_cell_oob game aid row col attacker defender hA hD hg]
      · by_cases ht : cellAt attacker.attacks row col ∈ [Cell.dot, Cell.fire, Cell.cross]
        · rw [attack_cell_already game aid row col attacker defender hA hD hg ht]
        · by_cases hs : cellAt defender.board row col = Cell.ship
          · rcases hf : get_ship_at_cell defender.ships row col with _ | ship
            · rw [attack_cell_hit_no_ship_eq game aid row col attacker defender hA hD
                hg ht hs hf]
              exact update_current ..
            · cases hd : check_ship_destroyed ship (setCell defender.board row col Cell.fire)
              · rw [attack_cell_hit_alive_eq game aid row col attacker defender ship hA hD
                  hg ht hs hf hd]
                exact update_current ..
              · rw [attack_cell_hit_destroyed_eq game aid row col attacker defender ship hA hD
                  hg ht hs hf hd]
                simp only
                split
                · exact (winner_update_current ..).trans (update_current ..)
                · exact update_current ..
          · rw [attack_cell_miss_eq game aid row col attacker defender hA hD hg ht hs]
            exact update_current ..

/-- C5 (code bug exhibit): in the Telegram handler a miss flips the turn to
the defender and a hit — sinking included — keeps it with the attacker;
but the HTTP API attack handler never flips the turn: a concrete miss
through `api_attack` leaves `current_player` with the attacker. -/
theorem turn_alternation_callback_vs_api :
    (∀ (game : GameState) (pid : PlayerId) (row col : Int) (now : ℚ),
      ((callback_attack game pid row col now).2 = .ok .miss →
        (callback_attack game pid row col now).1.current_player =
          some (defender_of pid)) ∧
      (∀ r : AttackResult, (callback_attack game pid row col now).2 = .ok r →
        r ≠ .miss →
        (callback_attack game pid row col now).1.current_player = some pid)) ∧
    ((api_attack sampleGame .p1 5 5 0).2 = .ok .miss ∧
      (api_attack sampleGame .p1 5 5 0).1.current_player = some .p1) := by
  constructor
  · intro game pid row col now
    by_cases h1 : game.current_player ≠ some pid
    · rw [callback_attack, if_pos h1]
      exact ⟨fun h => (by cases h), fun r h => (by cases h)⟩
    · have hpid : game.current_player = some pid := not_not.1 h1
      by_cases h2 : check_game_over game = true
      · rw [callback_attack, if_neg h1, if_pos h2]
        exact ⟨fun h => (by cases h), fun r h => (by cases h)⟩
      · have hcb := callback_attack.eq_def game pid row col now
        rw [if_neg h1, if_neg h2] at hcb
        have hcp : (attack_cell game pid row col).1.current_player = some pid := by
          rw [attack_cell_current_player, hpid]
        rcases hr : attack_cell game pid row col with ⟨g1, r0⟩
        rw [hr] at hcb hcp
        cases r0 with
        | err e =>
          rw [hcb]
          exact ⟨fun h => (by cases h), fun r h => (by cases h)⟩
        | hitDestroyed s =>
          rw [hcb]
          refine ⟨fun h => (by cases h), fun r h hne => ?_⟩
          simp only
          split <;> exact hcp
        | hitAlive =>
          rw [hcb]
          refine ⟨fun h => (by cases h), fun r h hne => ?_⟩
          simp only
          split <;> exact hcp
        | miss =>
          rw [hcb]
          refine ⟨fun h => ?_, fun r h hne => ?_⟩
          · simp only
            split <;> rfl
          · simp only at h
            injection h with h3
            exact absurd h3.symm hne
  · exact ⟨by decide, by decide⟩

/-- C5 witness: on the concrete fixture a miss through the Telegram handler
hands the turn to player 2, while a hit keeps it with player 1. -/
theorem turn_alternation_callback_vs_api_witness :
    (callback_attack sampleGame .p1 5 5 0).1.current_player = some (defender_of .p1) ∧
    (callback_attack sampleGame .p1 0 0 0).1.current_player = some .p1 :=
  ⟨(turn_alternation_callback_vs_api.1 sampleGame .p1 5 5 0).1 (by decide),
   (turn_alternation_callback_vs_api.1 sampleGame .p1 0 0 0).2 .hitAlive (by decide)
     (by decide)⟩

/-- C8 (code bug exhibit): the Telegram surrender records the surrendering
player id, hands the win to the opponent and finishes the game, after which
the Telegram attack handler refuses both players; but the HTTP API
surrender stores `True` instead of the player id, and since `api_attack`
never checks for a finished game, the surrendering player's next HTTP
attack is processed normally instead of failing. -/
theorem surrender_behavior :
    (∀ (game : GameState) (pid : PlayerId), check_game_over game = false →
      (callback_surrender game pid).1.winner = some (defender_of pid) ∧
      (callback_surrender game pid).1.surrendered = some (.pid pid) ∧
      check_game_over (callback_surrender game pid).1 = true ∧
      (∀ (qid : PlayerId) (row col : Int) (now : ℚ),
        (callback_attack (callback_surrender game pid).1 qid row col now).2 =
            .notYourTurn ∨
          (callback_attack (callback_surrender game pid).1 qid row col now).2 =
            .gameAlreadyOver)) ∧
    ((api_surrender sampleGame .p1).surrendered = some .boolTrue ∧
      (∀ pid : PlayerId, (api_surrender sampleGame .p1).surrendered ≠ some (.pid pid)) ∧
      (api_attack (api_surrender sampleGame .p1) .p1 5 5 0).2 = .ok .miss) := by
  constructor
  · intro game pid h
    have hno : ¬ (check_game_over game = true) := by rw [h]; simp
    refine ⟨?_, ?_, ?_, ?_⟩
    · rw [callback_surrender, if_neg hno]
    · rw [callback_surrender, if_neg hno]
    · rw [callback_surrender, if_neg hno]
      rfl
    · intro qid row col now
      by_cases hq : (callback_surrender game pid).1.current_player ≠ some qid
      · left
        rw [callback_attack, if_pos hq]
      · right
        have hover : check_game_over (callback_surrender game pid).1 = true := by
          rw [callback_surrender, if_neg hno]
          rfl
        rw [callback_attack, if_neg hq, if_pos hover]
  · exact ⟨rfl, by intro pid; cases pid <;> decide, by decide⟩

/-- C8 witness: the Telegram surrender outcome on the concrete fixture,
hypothesis discharged. -/
theorem surrender_behavior_witness :
    (callback_surrender sampleGame .p1).1.winner = some (defender_of .p1) ∧
    (callback_surrender sampleGame .p1).1.surrendered = some (.pid .p1) ∧
    check_game_over (callback_surrender sampleGame .p1).1 = true ∧
    (∀ (qid : PlayerId) (row col : Int) (now : ℚ),
      (callback_attack (callback_surrender sampleGame .p1).1 qid row col now).2 =
          .notYourTurn ∨
        (callback_attack (callback_surrender sampleGame .p1).1 qid row col now).2 =
          .gameAlreadyOver) :=
  surrender_behavior.1 sampleGame .p1 (by decide)

/-- C9 (code bug exhibit): when both players are ready, `start_battle`
initializes the turn timer for a timed game, but the "uniformly random"
starting player is `timestamp % 2 == 0` on a float-valued clock: player 1
is picked only when the timestamp is an exactly even integer, so any
timestamp with a fractional part — in practice every clock reading —
selects player 2. -/
theorem start_battle_pick_not_uniform :
    (∀ (game : GameState) (now : ℚ), game.is_ready_to_start = true →
      game.is_timed = true → (start_battle game now).last_move_time = some now) ∧
    (∀ (game : GameState) (now : ℚ), game.is_ready_to_start = true →
      (start_battle game now).current_player =
        some (if timestampModTwoIsZero now then PlayerId.p1 else PlayerId.p2)) ∧
    (∀ now : ℚ, now.den ≠ 1 → timestampModTwoIsZero now = false) ∧
    timestampModTwoIsZero (mkRat 3 2) = false ∧
    timestampModTwoIsZero (mkRat 4 1) = true := by
  refine ⟨?_, ?_, ?_, by decide, by decide⟩
  · intro game now h1 h2
    have hno : ¬ (game.is_ready_to_start = false) := by rw [h1]; simp
    rw [start_battle, if_neg hno]
    simp only
    rw [if_pos (by simpa using h2)]
  · intro game now h1
    have hno : ¬ (game.is_ready_to_start = false) := by rw [h1]; simp
    rw [start_battle, if_neg hno]
    simp only
    split <;> rfl
  · intro now h
    rw [timestampModTwoIsZero]
    have : (now.den == 1) = false := by
      simp [h]
    rw [this]
    rfl

/-- Fixture for the battle start: the sample game with the timer enabled. -/
def sampleTimedGame : GameState :=
  { sampleGame with is_timed := true }

/-- C9 witness: at the concrete non-integer timestamp 3/2 the timer is
initialized and player 2 is selected, all hypotheses discharged. -/
theorem start_battle_pick_not_uniform_witness :
    (start_battle sampleTimedGame (mkRat 3 2)).last_move_time = some (mkRat 3 2) ∧
    (start_battle sampleTimedGame (mkRat 3 2)).current_player = some PlayerId.p2 := by
  constructor
  · exact start_battle_pick_not_uniform.1 sampleTimedGame (mkRat 3 2) (by decide) rfl
  · have h2 := start_battle_pick_not_uniform.2.1 sampleTimedGame (mkRat 3 2) (by decide)
    have h4 := start_battle_pick_not_uniform.2.2.2.1
    rw [h2, h4]
    rfl

/-- C2 (code bug exhibit): `auto_place_ships` has no restart bound and no
terminal error.  Under the adversarial-but-legitimate random source
`stuckOracle` (identity shuffle, every proposal horizontal at `(0, 0)`),
every single pass fails — the second size-3 ship always collides with the
first — so for every number of restarts examined, the recursion has still
not produced a result: the source would recurse forever instead of failing
with a `PlacementExhausted` error after a bounded number of restarts. -/
theorem auto_place_ships_unbounded (fuel r : Nat) :
    auto_place_ships_fuel .classic stuckOracle r fuel = none := by
  induction fuel generalizing r with
  | zero => rfl
  | succ f ih =>
    have hattempt : auto_place_attempt (get_ship_config Mode.classic).size
        (stuckOracle.shuffles r) (stuckOracle.choices r) 0
        (create_empty_board (get_ship_config Mode.classic).size) [] = none := by
      show auto_place_attempt 8 [3, 3, 2, 2, 1, 1, 1, 1] (fun _ _ => (true, 0, 0)) 0
        (create_empty_board 8) [] = none
      decide
    rw [auto_place_ships_fuel, hattempt]
    exact ih (r + 1)

end SeaBattle
